import Mathlib

/-!
Shallow embedding of `bls_data/bls.py` (class `BlsData`): the series merger
`_construct_df`, the period normalizer `_organize_df`, the location resolver
`_get_location`, and the presentation formatter `clean_df` / `create_table` /
`create_graph`.  Pandas frames are lists of rows; pandas/Python exceptions are
an explicit error type; the three area-code reference tables (CSV data, not
code) are parameters.
-/

namespace BlsData

/-! ### Decimal digits, modelling Python's int()/str() and strftime padding -/

/-- True for an ASCII decimal digit character (code points 48 to 57). -/
def isDigitC (c : Char) : Bool := 48 ≤ c.toNat && c.toNat ≤ 57

/-- Numeric value of a decimal digit character. -/
def charVal (c : Char) : Nat := c.toNat - 48

/-- Character for a decimal digit value. -/
def valChar (d : Nat) : Char := Char.ofNat (48 + d)

/-- Value of a big-endian decimal digit string, as Python `int()` reads one. -/
def digitsToNat (cs : List Char) : Nat := cs.foldl (fun n c => 10 * n + charVal c) 0

/-- Big-endian decimal digits of `n`, with explicit fuel for structural recursion. -/
def natToCharsAux : Nat → Nat → List Char
  | 0, _ => []
  | _ + 1, 0 => []
  | fuel + 1, n + 1 => natToCharsAux fuel ((n + 1) / 10) ++ [valChar ((n + 1) % 10)]

/-- Decimal rendering of `n`, as Python `str()` renders a nonnegative int. -/
def natToChars (n : Nat) : List Char := if n = 0 then ['0'] else natToCharsAux n n

/-- Left-pad with `'0'` to width `w`, as `strftime` field padding does. -/
def padZeros (w : Nat) (cs : List Char) : List Char :=
  List.replicate (w - cs.length) '0' ++ cs

/-- True when every character is a decimal digit. -/
def allDigits (cs : List Char) : Bool := cs.all isDigitC

/-- Lexicographic comparison of character lists by code point, the order in
which both Python string comparison and pandas sort string labels. -/
def listLe : List Char → List Char → Bool
  | [], _ => true
  | _ :: _, [] => false
  | a :: as, b :: bs =>
    if a.toNat < b.toNat then true
    else if b.toNat < a.toNat then false
    else listLe as bs

/-- Lexicographic order on strings, as Python compares `str` values. -/
def strLe (a b : String) : Bool := listLe a.toList b.toList

/-- Insert into a sorted list, keeping it sorted; the step of a stable sort. -/
def insertSorted (le : α → α → Bool) (a : α) : List α → List α
  | [] => [a]
  | b :: l => if le a b then a :: b :: l else b :: insertSorted le a l

/-- Insertion sort by a boolean comparator, modelling `df.sort_index()`. -/
def sortBy (le : α → α → Bool) : List α → List α
  | [] => []
  | a :: l => insertSorted le a (sortBy le l)

/-- Split a character list at every occurrence of the character `c`. -/
def splitOnChar (c : Char) : List Char → List (List Char)
  | [] => [[]]
  | a :: rest =>
    let r := splitOnChar c rest
    if a = c then [] :: r
    else
      match r with
      | [] => [[a]]
      | h :: t => (a :: h) :: t

/-! ### Error model

Python/pandas exceptions raised by the program, named after the spec's error
kinds where the spec gives one: `dataConversionError` is the `ValueError`
raised by `pd.to_numeric`, `periodParseError` the parse failure raised by
`pd.to_datetime`/`strptime`, `unknownGeography` the pandas `KeyError` raised
by `.loc[area_code]` on a reference table. -/
inductive BlsError where
  | dataConversionError
  | periodParseError
  | unknownGeography
  | keyError
  | indexError
  | valueError
  | attributeError
deriving DecidableEq, Repr

instance {ε α : Type} [DecidableEq ε] [DecidableEq α] : DecidableEq (Except ε α) := fun
  | .ok a, .ok b => decidable_of_iff (a = b) (by simp)
  | .error e, .error f => decidable_of_iff (e = f) (by simp)
  | .ok _, .error _ => isFalse Except.noConfusion
  | .error _, .ok _ => isFalse Except.noConfusion

/-! ### Data model -/

/-- One observation of the raw payload: `value` is the JSON string; `none`
models a null/NaN cell, which `pd.to_numeric` passes through. -/
structure Obs where
  year : String
  period : String
  value : Option String
deriving DecidableEq, Repr

/-- One entry of `raw_data`: a series identifier with its observation list. -/
structure SeriesPayload where
  seriesID : String
  data : List Obs
deriving DecidableEq, Repr

/-- A row of the merged frame built by `_construct_df`: join keys plus one
cell per value column, `none` modelling a NaN cell. -/
structure MergedRow where
  year : String
  period : String
  cells : List (Option Rat)
deriving DecidableEq, Repr

/-- The merged frame of `_construct_df`: the `year`/`period` columns are the
row fields, `valueCols` the remaining column labels in order. -/
structure MergedDf where
  valueCols : List String
  rows : List MergedRow
deriving DecidableEq, Repr

/-- Join key of a merged row. -/
def MergedRow.key (r : MergedRow) : String × String := (r.year, r.period)

/-- Join key of an observation. -/
def Obs.key (o : Obs) : String × String := (o.year, o.period)

/-! ### Monadic helpers (Python for-loops over fallible bodies) -/

/-- Map a partial function over a list, failing when any element fails. -/
def mapMO (f : α → Option β) : List α → Option (List β)
  | [] => some []
  | a :: l =>
    match f a with
    | none => none
    | some b =>
      match mapMO f l with
      | none => none
      | some bs => some (b :: bs)

/-- Map a fallible function over a list, stopping at the first error. -/
def mapME (f : α → Except BlsError β) : List α → Except BlsError (List β)
  | [] => .ok []
  | a :: l =>
    match f a with
    | .error e => .error e
    | .ok b =>
      match mapME f l with
      | .error e => .error e
      | .ok bs => .ok (b :: bs)

/-- Fold a fallible function over a list, stopping at the first error. -/
def foldME (f : σ → α → Except BlsError σ) : σ → List α → Except BlsError σ
  | s, [] => .ok s
  | s, a :: l =>
    match f s a with
    | .error e => .error e
    | .ok s2 => foldME f s2 l

/-- Concatenation of the images of `f`, used for join row expansion. -/
def concatMap (f : α → List β) : List α → List β
  | [] => []
  | a :: l => f a ++ concatMap f l

/-! ### Series merger: `_construct_df` -/

/-- Models `pd.to_numeric` applied to one string: an optionally signed decimal
literal with an optional fractional part; anything else raises. -/
def parseNumeric (s : String) : Option Rat :=
  let cs := s.toList
  let sgn := match cs with
    | '-' :: rest => (true, rest)
    | '+' :: rest => (false, rest)
    | _ => (false, cs)
  let neg := sgn.1
  let ip := sgn.2.takeWhile isDigitC
  let rest := sgn.2.dropWhile isDigitC
  let mkVal (fp : List Char) : Rat :=
    let v : Rat := (digitsToNat ip : Rat) + (digitsToNat fp : Rat) / (10 : Rat) ^ fp.length
    if neg then -v else v
  match rest with
  | [] => if ip.isEmpty then none else some (mkVal [])
  | '.' :: fp =>
    if (ip.isEmpty && fp.isEmpty) || !allDigits fp then none else some (mkVal fp)
  | _ => none

/-- Convert one observation's cell as `pd.to_numeric` does: a NaN cell passes
through, a string cell must parse. -/
def obsCell (o : Obs) : Option (Option Rat) :=
  match o.value with
  | none => some none
  | some s => (parseNumeric s).map some

/-- The `(year, period, value)` frame built for one series, with `value`
coerced to numeric; `none` when `pd.to_numeric` raises. -/
def seriesFrame (data : List Obs) : Option (List ((String × String) × Option Rat)) :=
  mapMO (fun o => (obsCell o).map (fun v => (o.key, v))) data

/-- One step of the progressive merge: an outer join of the accumulated frame
with one series frame on `(year, period)`.  A value column name already
present collects pandas' default `_x`/`_y` merge suffixes. -/
def mergeOuter (acc : MergedDf) (col : String) (srows : List ((String × String) × Option Rat)) :
    MergedDf :=
  let overlap := col ∈ acc.valueCols
  let leftCols := if overlap then
      acc.valueCols.map (fun c => if c = col then c ++ "_x" else c)
    else acc.valueCols
  let rightCol := if overlap then col ++ "_y" else col
  let leftRows := concatMap (fun r =>
      let ms := srows.filter (fun kv => kv.1 == r.key)
      match ms with
      | [] => [MergedRow.mk r.year r.period (r.cells ++ [none])]
      | _ => ms.map (fun kv => MergedRow.mk r.year r.period (r.cells ++ [kv.2]))) acc.rows
  let rightRows := (srows.filter (fun kv => !acc.rows.any (fun r => kv.1 == r.key))).map
      (fun kv => MergedRow.mk kv.1.1 kv.1.2 (acc.valueCols.map (fun _ => none) ++ [kv.2]))
  MergedDf.mk (leftCols ++ [rightCol]) (leftRows ++ rightRows)

/-- One iteration of the `_construct_df` loop: skip a payload whose `data` is
empty, otherwise coerce its values to numeric and outer-join it in. -/
def constructStep (acc : MergedDf) (p : SeriesPayload) : Except BlsError MergedDf :=
  if p.data.isEmpty then .ok acc
  else
    match seriesFrame p.data with
    | none => .error .dataConversionError
    | some srows => .ok (mergeOuter acc p.seriesID srows)

/-- Models `_construct_df`: start from an empty frame with columns
`['year', 'period']`, skip payloads whose `data` is empty, coerce each
remaining payload's values to numeric, and progressively outer-join on
`(year, period)`. -/
def construct_df (raw : List SeriesPayload) : Except BlsError MergedDf :=
  foldME constructStep (MergedDf.mk [] []) raw

/-! ### Period normalizer: `_organize_df` -/

/-- Models `Series.str.replace(old, '')` for a one-character pattern: every
occurrence of `c` is removed. -/
def stripChar (c : Char) (s : String) : String :=
  String.mk (s.toList.filter (fun x => x != c))

/-- True when the first of month `(y, m)` fits in pandas' `Timestamp` range
(1677-09-21 to 2262-04-11); outside it `pd.to_datetime` raises. -/
def tsOk (y m : Nat) : Bool :=
  (y == 1677 && 10 ≤ m) || (1678 ≤ y && y ≤ 2261) || (y == 2262 && m ≤ 4)

/-- Models `pd.to_datetime` default string parsing on the shapes this program
builds: `'{year}-Q{q}'` (a pandas quarter string, resolved to the first month
`3*(q-1)+1` of quarter `q`, `q` in 1..4) and `'{year}-{m}'` (month number
`m` in 1..12, day defaulting to 1).  The result is the `(year, month)` pair of
the parsed `Timestamp`; `none` models the raised parse error. -/
def pdToDatetime (s : String) : Option (Nat × Nat) :=
  match splitOnChar '-' s.toList with
  | [ys, ps] =>
    if allDigits ys && !ys.isEmpty then
      let y := digitsToNat ys
      match ps with
      | 'Q' :: qs =>
        if allDigits qs && !qs.isEmpty then
          let q := digitsToNat qs
          if 1 ≤ q && q ≤ 4 && tsOk y (3 * (q - 1) + 1) then some (y, 3 * (q - 1) + 1)
          else none
        else none
      | _ =>
        if allDigits ps && !ps.isEmpty then
          let m := digitsToNat ps
          if 1 ≤ m && m ≤ 12 && tsOk y m then some (y, m) else none
        else none
    else none
  | _ => none

/-- Models `pd.to_datetime(_, format='%m-%Y')`: `strptime` with `%m` a one- or
two-digit month 1..12 and `%Y` an up to four digit year, then the `Timestamp`
range check. -/
def pdToDatetimeFmtMY (s : String) : Option (Nat × Nat) :=
  match splitOnChar '-' s.toList with
  | [ms, ys] =>
    if allDigits ms && (ms.length == 1 || ms.length == 2) &&
        allDigits ys && !ys.isEmpty && ys.length ≤ 4 then
      let m := digitsToNat ms
      let y := digitsToNat ys
      if 1 ≤ m && m ≤ 12 && tsOk y m then some (y, m) else none
    else none
  | _ => none

/-- Models `Timestamp.strftime('%Y-%m')`: the year zero-padded to four digits
and the month to two, joined by a dash. -/
def fmtYM (ym : Nat × Nat) : String :=
  String.mk (padZeros 4 (natToChars ym.1) ++ '-' :: padZeros 2 (natToChars ym.2))

/-- Working row of `_organize_df`: the merged row plus the `date` column,
`none` while no branch has created that column. -/
structure ORow where
  year : String
  period : String
  date : Option String
  cells : List (Option Rat)
deriving DecidableEq, Repr

/-- Lift a merged row into the working frame copied at the top of
`_organize_df`. -/
def MergedRow.toORow (r : MergedRow) : ORow := ORow.mk r.year r.period none r.cells

/-- Models `df.loc[0]['period'][0]`: `KeyError` on an empty frame,
`IndexError` on an empty period string. -/
def firstPeriodChar (rows : List ORow) : Except BlsError Char :=
  match rows with
  | [] => .error .keyError
  | r :: _ =>
    match r.period.toList with
    | [] => .error .indexError
    | c :: _ => .ok c

/-- The quarterly branch: remove every `'0'` from the period, build
`'{year}-{period}'`, parse with `pd.to_datetime` and render `'%Y-%m'`. -/
def qTransform (rows : List ORow) : Except BlsError (List ORow) :=
  mapME (fun r =>
      match pdToDatetime (r.year ++ "-" ++ r.period) with
      | none => .error .periodParseError
      | some ym => .ok (ORow.mk r.year r.period (some (fmtYM ym)) r.cells))
    (rows.map (fun r => ORow.mk r.year (stripChar '0' r.period) r.date r.cells))

/-- The monthly branch: remove every `'M'` from the period, build
`'{period}-{year}'`, parse with format `'%m-%Y'` and render `'%Y-%m'`. -/
def mTransform (rows : List ORow) : Except BlsError (List ORow) :=
  mapME (fun r =>
      match pdToDatetimeFmtMY (r.period ++ "-" ++ r.year) with
      | none => .error .periodParseError
      | some ym => .ok (ORow.mk r.year r.period (some (fmtYM ym)) r.cells))
    (rows.map (fun r => ORow.mk r.year (stripChar 'M' r.period) r.date r.cells))

/-- The semi-annual branch: remove every `'S'`, apply Python `int()` to the
remaining digits (`ValueError` otherwise), multiply by 6, then proceed as the
quarterly branch does with `'{year}-{period}'`. -/
def sTransform (rows : List ORow) : Except BlsError (List ORow) :=
  match mapME (fun r =>
      let p := (stripChar 'S' r.period).toList
      if allDigits p && !p.isEmpty then
        .ok (ORow.mk r.year (String.mk (natToChars (6 * digitsToNat p))) r.date r.cells)
      else .error .valueError)
    rows with
  | .error e => .error e
  | .ok rows1 =>
    mapME (fun r =>
        match pdToDatetime (r.year ++ "-" ++ r.period) with
        | none => .error .periodParseError
        | some ym => .ok (ORow.mk r.year r.period (some (fmtYM ym)) r.cells))
      rows1

/-- The canonical frame produced by `_organize_df`: the `date` string as the
row index, sorted ascending, with `period`/`year` dropped. -/
structure CanonDf where
  valueCols : List String
  rows : List (String × List (Option Rat))
deriving DecidableEq, Repr

/-- Row order used by `df.sort_index()`: compare the date index strings. -/
def dateLe (a b : String × List (Option Rat)) : Bool := strLe a.1 b.1

/-- Row order used by `df.sort_index(ascending=False)` in `create_table`. -/
def dateGe (a b : String × List (Option Rat)) : Bool := strLe b.1 a.1

/-- Models `_organize_df`: four sequential frequency branches selected on the
first row's leading period character (each re-reads the possibly rewritten
period), then `set_index('date')` (a `KeyError` when no branch created the
column), ascending sort on the index, and dropping `period`/`year`. -/
def setIndexDate (rows : List ORow) : Except BlsError (List (String × List (Option Rat))) :=
  mapME (fun r =>
      match r.date with
      | some d => .ok (d, r.cells)
      | none => .error .keyError) rows

def organize_df (df : MergedDf) : Except BlsError CanonDf :=
  let rows0 := df.rows.map MergedRow.toORow
  match firstPeriodChar rows0 with
  | .error e => .error e
  | .ok c1 =>
    match (if c1 = 'Q' then qTransform rows0 else .ok rows0) with
    | .error e => .error e
    | .ok rows1 =>
      match firstPeriodChar rows1 with
      | .error e => .error e
      | .ok c2 =>
        match (if c2 = 'M' then mTransform rows1 else .ok rows1) with
        | .error e => .error e
        | .ok rows2 =>
          match firstPeriodChar rows2 with
          | .error e => .error e
          | .ok c3 =>
            match (if c3 = 'S' then sTransform rows2 else .ok rows2) with
            | .error e => .error e
            | .ok rows3 =>
              match firstPeriodChar rows3 with
              | .error e => .error e
              | .ok c4 =>
                match setIndexDate (if c4 = 'A' then
                    rows3.map (fun r => ORow.mk r.year r.period (some r.year) r.cells)
                  else rows3) with
                | .error e => .error e
                | .ok frows => .ok (CanonDf.mk df.valueCols (sortBy dateLe frows))

/-- Models the `__init__` pipeline from `raw_data` to the stored frames:
`raw_df = _construct_df()` and
`df = _organize_df() if len(raw_df) > 0 else None`. -/
def buildFrames (raw : List SeriesPayload) : Except BlsError (MergedDf × Option CanonDf) :=
  match construct_df raw with
  | .error e => .error e
  | .ok rawDf =>
    if 0 < rawDf.rows.length then
      match organize_df rawDf with
      | .error e => .error e
      | .ok df => .ok (rawDf, some df)
    else .ok (rawDf, none)

/-! ### Location resolver: `_get_location`

The three reference tables (`qcew_area_codes_df`, `la_area_codes_df`,
`oes_area_codes_df`, loaded from packaged CSV data) are parameters: an
association list from geography code to geography name. -/

/-- True for an ASCII uppercase letter, the `[A-Z]` character class. -/
def isUpper (c : Char) : Bool := 'A' ≤ c && c ≤ 'Z'

/-- Models `.loc[k][field]` on a reference table: the name stored at key `k`,
`none` modelling the raised `KeyError`. -/
def lookupTable (t : List (String × String)) (k : String) : Option String :=
  (t.find? (fun p => p.1 == k)).map (fun p => p.2)

/-- Models `re.search(r'^[A-Z]{3}([\d|U][\d|S]\d\d\d)', series).group(1)`:
three uppercase letters, then a five-character code whose first character is a
digit, `'|'` or `'U'` (the `|` is literal inside the class) and second a
digit, `'|'` or `'S'`, then three digits; `none` when the match fails (the
`.group(1)` call then raises `AttributeError`). -/
def enCode (s : String) : Option String :=
  match s.toList with
  | a :: b :: c :: d :: e :: f :: g :: h :: _ =>
    if isUpper a && isUpper b && isUpper c &&
        (isDigitC d || d == '|' || d == 'U') &&
        (isDigitC e || e == '|' || e == 'S') &&
        isDigitC f && isDigitC g && isDigitC h then
      some (String.mk [d, e, f, g, h])
    else none
  | _ => none

/-- Models `re.search(r'^[A-Z]{3}([A-Z]{2}\d{13})', series).group(1)`: three
uppercase letters, then two uppercase letters and thirteen digits forming the
fifteen-character code. -/
def laCode (s : String) : Option String :=
  let cs := s.toList
  if decide (18 ≤ cs.length) && (cs.take 5).all isUpper &&
      ((cs.drop 5).take 13).all isDigitC then
    some (String.mk ((cs.drop 3).take 15))
  else none

/-- Models `re.search(r'^[A-Z]*(\d\d\d\d\d\d\d)', series).group(1)`: the
maximal leading run of uppercase letters (possibly empty), then seven digits. -/
def oeCode (s : String) : Option String :=
  let ds := s.toList.dropWhile isUpper
  if decide (7 ≤ ds.length) && (ds.take 7).all isDigitC then
    some (String.mk (ds.take 7))
  else none

/-- Models Python dict assignment `d[k] = v` on an association list. -/
def dictInsert (l : List (String × String)) (k v : String) : List (String × String) :=
  if l.any (fun p => p.1 == k) then l.map (fun p => if p.1 == k then (k, v) else p)
  else l ++ [(k, v)]

/-- The body of the `_get_location` loop for one series identifier: the three
prefix tests run in sequence (`re.match('EN', series[0:2])`,
`series[0:2] == 'LA'`, `re.match('OE', series[0:2])`), each extracting its
code and looking it up in its own table. -/
def resolveEN (qcew : List (String × String)) (acc : List (String × String))
    (series : String) : Except BlsError (List (String × String)) :=
  if series.toList.take 2 = ['E', 'N'] then
    match enCode series with
    | none => .error .attributeError
    | some code =>
      match lookupTable qcew code with
      | none => .error .unknownGeography
      | some name => .ok (dictInsert acc series name)
  else .ok acc

def resolveLA (la : List (String × String)) (acc : List (String × String))
    (series : String) : Except BlsError (List (String × String)) :=
  if series.toList.take 2 = ['L', 'A'] then
    match laCode series with
    | none => .error .attributeError
    | some code =>
      match lookupTable la code with
      | none => .error .unknownGeography
      | some name => .ok (dictInsert acc series name)
  else .ok acc

def resolveOE (oes : List (String × String)) (acc : List (String × String))
    (series : String) : Except BlsError (List (String × String)) :=
  if series.toList.take 2 = ['O', 'E'] then
    match oeCode series with
    | none => .error .attributeError
    | some code =>
      match lookupTable oes code with
      | none => .error .unknownGeography
      | some name => .ok (dictInsert acc series name)
  else .ok acc

def resolveOne (qcew la oes : List (String × String)) (acc : List (String × String))
    (series : String) : Except BlsError (List (String × String)) :=
  match resolveEN qcew acc series with
  | .error e => .error e
  | .ok acc1 =>
    match resolveLA la acc1 series with
    | .error e => .error e
    | .ok acc2 => resolveOE oes acc2 series

/-- Models `_get_location`: fold the per-identifier resolution over the series
list, starting from an empty dict; a raised exception aborts the whole loop. -/
def get_location (qcew la oes : List (String × String)) (seriesIds : List String) :
    Except BlsError (List (String × String)) :=
  foldME (resolveOne qcew la oes) [] seriesIds

/-! ### Presentation formatter: `clean_df`, `create_table`, `create_graph` -/

/-- Cut a location name at the first separator, modelling
`re.split('--|,', loc)[0]`: the text strictly before the first occurrence of
`'--'` or `','`, the whole string when neither occurs. -/
def sepCut : List Char → List Char
  | [] => []
  | c :: rest =>
    if c = ',' then []
    else if c = '-' ∧ rest.head? = some '-' then []
    else c :: sepCut rest

/-- Short-name formatting of one resolved location name. -/
def shortName (s : String) : String := String.mk (sepCut s.toList)

/-- The rename map built by `clean_df`: the locations dict, its values cut at
the first separator in short-names mode. -/
def buildCols (locations : List (String × String)) (short : Bool) : List (String × String) :=
  if short then locations.map (fun p => (p.1, shortName p.2)) else locations

/-- Models Python `dict.update`: existing keys overwritten, new keys appended. -/
def dictUpdate (base upd : List (String × String)) : List (String × String) :=
  upd.foldl (fun acc kv => dictInsert acc kv.1 kv.2) base

/-- Models `df.rename(columns=cols, errors='raise')` on the canonical frame:
a `KeyError` when some mapping key is not a column label, otherwise each
column label is replaced by its image. -/
def renameColumnsRaise (df : CanonDf) (cols : List (String × String)) :
    Except BlsError CanonDf :=
  if cols.all (fun kv => df.valueCols.contains kv.1) then
    .ok (CanonDf.mk (df.valueCols.map (fun c => (lookupTable cols c).getD c)) df.rows)
  else .error .keyError

/-- The complete rename map `clean_df` assembles: the locations dict (short
names applied when requested) updated with the caller's custom column names
when given (a falsy/absent dict is skipped). -/
def renameMap (locations : List (String × String))
    (customColumnNames : Option (List (String × String))) (short : Bool) :
    List (String × String) :=
  match customColumnNames with
  | none => buildCols locations short
  | some custom => dictUpdate (buildCols locations short) custom

/-- Models `clean_df`: `self.df` (an `AttributeError` when it is `None`), the
rename map from `self.locations` and the caller's overrides, and the renaming
with `errors='raise'`. -/
def clean_df (df : Option CanonDf) (locations : List (String × String))
    (customColumnNames : Option (List (String × String))) (shortLocationNames : Bool) :
    Except BlsError CanonDf :=
  match df with
  | none => .error .attributeError
  | some table =>
    renameColumnsRaise table (renameMap locations customColumnNames shortLocationNames)

/-- Models the dataframe part of `create_table`: the cleaned frame, re-sorted
descending on the index when `descending` is set. -/
def create_table (df : Option CanonDf) (locations : List (String × String))
    (customColumnNames : Option (List (String × String))) (shortLocationNames : Bool)
    (descending : Bool) : Except BlsError CanonDf :=
  match clean_df df locations customColumnNames shortLocationNames with
  | .error e => .error e
  | .ok t => .ok (if descending then CanonDf.mk t.valueCols (sortBy dateGe t.rows) else t)

/-- A transposed frame as `create_graph` builds one for single-row tables:
column labels are the date keys, rows are the series. -/
structure TransposedDf where
  colDates : List String
  rows : List (String × List (Option Rat))
deriving DecidableEq, Repr

/-- Models `df.transpose()` on the canonical frame. -/
def transposeDf (t : CanonDf) : TransposedDf :=
  TransposedDf.mk (t.rows.map (fun r => r.1))
    ((List.range t.valueCols.length).map (fun i =>
      (t.valueCols.getD i "", t.rows.map (fun r => r.2.getD i none))))

/-- Models the dataframe part of `create_graph`: the graph-type check raises
`ValueError` first, then the cleaned frame, optionally transposed. -/
def create_graph (df : Option CanonDf) (locations : List (String × String))
    (graphType : String) (customColumnNames : Option (List (String × String)))
    (shortLocationNames : Bool) (transpose : Bool) :
    Except BlsError (CanonDf ⊕ TransposedDf) :=
  if graphType ≠ "line" ∧ graphType ≠ "bar" then .error .valueError
  else
    match clean_df df locations customColumnNames shortLocationNames with
    | .error e => .error e
    | .ok t => .ok (if transpose then Sum.inr (transposeDf t) else Sum.inl t)

/-! ### Object state for the formatter frame property

`clean_df`, `create_table` and `create_graph` never assign to `self.df`:
`rename`, `sort_index` and `transpose` all return new frames, so the stored
canonical table is only read.  The stored location map, however, CAN be
mutated: with `short_location_names=False` the rename dict `cols` built by
`clean_df` is `self.locations` itself (not a copy), so a truthy
`custom_column_names` makes `cols.update(custom_column_names)` update the
stored map in place.  That update precedes the `rename` call (and the
attribute access that fails when `self.df` is `None`), so it happens even on
calls whose result is an exception; in `create_graph` the graph-type
`ValueError` is raised before `clean_df` runs, so an invalid graph type
leaves the map untouched. -/

/-- The stored state a formatter call can see: the canonical table and the
location map. -/
structure BlsState where
  df : Option CanonDf
  locations : List (String × String)
deriving DecidableEq, Repr

/-- One invocation of the presentation formatter. -/
inductive FormatterCall where
  | clean (custom : Option (List (String × String))) (short : Bool)
  | table (custom : Option (List (String × String))) (short : Bool) (descending : Bool)
  | graph (graphType : String) (custom : Option (List (String × String))) (short : Bool)
      (transpose : Bool)
deriving Repr

/-- Output of one formatter invocation. -/
inductive FormatterOut where
  | frame (t : CanonDf)
  | tframe (t : TransposedDf)
deriving DecidableEq, Repr

/-- The location map left behind by the body of one `clean_df` call: in
short-names mode `cols` is a fresh dict comprehension and the stored map is
untouched; otherwise `cols` aliases `self.locations`, so when
`custom_column_names` is truthy (present and non-empty — `if
custom_column_names:` skips `None` and `{}`) the in-place
`cols.update(custom_column_names)` mutates the stored map. -/
def locationsAfterClean (locations : List (String × String))
    (customColumnNames : Option (List (String × String))) (short : Bool) :
    List (String × String) :=
  if short then locations
  else
    match customColumnNames with
    | none => locations
    | some custom => if custom.isEmpty then locations else dictUpdate locations custom

/-- Run one formatter call against the stored state, returning its result and
the state left behind by the method body.  `clean` and `table` reach the
`cols.update` line before anything can raise, so their state effect applies
on every call; `graph` raises `ValueError` for an invalid graph type before
calling `clean_df`, leaving the state untouched on that path. -/
def formatterStep (st : BlsState) (c : FormatterCall) :
    Except BlsError FormatterOut × BlsState :=
  match c with
  | .clean custom short =>
    ((clean_df st.df st.locations custom short).map FormatterOut.frame,
      BlsState.mk st.df (locationsAfterClean st.locations custom short))
  | .table custom short desc =>
    ((create_table st.df st.locations custom short desc).map FormatterOut.frame,
      BlsState.mk st.df (locationsAfterClean st.locations custom short))
  | .graph g custom short tr =>
    ((create_graph st.df st.locations g custom short tr).map (fun x =>
        match x with
        | Sum.inl t => FormatterOut.frame t
        | Sum.inr t => FormatterOut.tframe t),
      if g ≠ "line" ∧ g ≠ "bar" then st
      else BlsState.mk st.df (locationsAfterClean st.locations custom short))

/-- Run a sequence of formatter calls, threading the state. -/
def runFormatters (st : BlsState) (calls : List FormatterCall) : BlsState :=
  calls.foldl (fun s c => (formatterStep s c).2) st

/-! ### Specification-side definitions used in the theorem statements -/

/-- The payloads that are not skipped by the `bool(bls_series['data'])` test. -/
def nonEmptyPayloads (ps : List SeriesPayload) : List SeriesPayload :=
  ps.filter (fun p => !p.data.isEmpty)

/-- The `(year, period)` keys carried by a payload's observations. -/
def payloadKeys (p : SeriesPayload) : List (String × String) :=
  p.data.map Obs.key

/-- The key/value pair one observation contributes to its series frame. -/
def obsKV (o : Obs) : (String × String) × Option Rat :=
  (o.key, (obsCell o).getD none)

/-- The numeric cell a payload contributes at key `k`: the coerced value of
its observation at `k`, and an absent cell (`none`, pandas NaN) when the
payload has no observation at `k`. -/
def valueAt (p : SeriesPayload) (k : String × String) : Option Rat :=
  match p.data.find? (fun o => o.key == k) with
  | none => none
  | some o => (obsCell o).getD none

/-- How one merge step extends an already-present row: the payload's value at
that row's key is appended as the new column's cell. -/
def extendRow (p : SeriesPayload) (r : MergedRow) : MergedRow :=
  MergedRow.mk r.year r.period (r.cells ++ [valueAt p r.key])

/-- Full characterization of the merged frame built from the payload list
`ql`: value columns are the series identifiers in order, row keys are exactly
the distinct keys of `ql` with no duplicates, and each row's cells are the
per-payload values at that row's key. -/
def mergeInvariant (ql : List SeriesPayload) (df : MergedDf) : Prop :=
  df.valueCols = ql.map (fun p => p.seriesID) ∧
  (df.rows.map MergedRow.key).Nodup ∧
  (∀ k, k ∈ df.rows.map MergedRow.key ↔ ∃ p ∈ ql, k ∈ payloadKeys p) ∧
  (∀ r ∈ df.rows, r.cells = ql.map (fun p => valueAt p r.key))

/-- The four quarterly period tags of the BLS encoding. -/
def quarterPeriods : List String := ["Q01", "Q02", "Q03", "Q04"]

/-- The first month of each quarter, as a two-digit token: the month that the
pandas quarter string `'YYYY-Qq'` actually resolves to. -/
def qStartMonth (p : String) : String :=
  match p with
  | "Q01" => "01"
  | "Q02" => "04"
  | "Q03" => "07"
  | "Q04" => "10"
  | _ => ""

/-- The twelve monthly period tags of the BLS encoding. -/
def monthPeriods : List String :=
  ["M01", "M02", "M03", "M04", "M05", "M06", "M07", "M08", "M09", "M10", "M11", "M12"]

/-- A well-formed year string for the date reconstruction: four digits, no
leading zero, inside the pandas `Timestamp` year range. -/
def yearOk (y : String) : Bool :=
  (y.toList.length == 4) && allDigits y.toList && !(y.toList.head? == some '0') &&
    (1678 ≤ digitsToNat y.toList) && (digitsToNat y.toList ≤ 2261)

/-- Detect an occurrence of the separator `'--'` or `','` anywhere in the
character list. -/
def hasSep : List Char → Bool
  | [] => false
  | c :: rest => (c == ',') || (c == '-' && rest.head? == some '-') || hasSep rest

/-! ### Lemmas: sorting -/

theorem insertSorted_perm (le : α → α → Bool) (a : α) :
    ∀ l : List α, List.Perm (insertSorted le a l) (a :: l)
  | [] => List.Perm.refl _
  | b :: l => by
    by_cases h : le a b
    · simp [insertSorted, h]
    · simpa [insertSorted, h] using
        ((insertSorted_perm le a l).cons b).trans (List.Perm.swap a b l)

theorem sortBy_perm (le : α → α → Bool) : ∀ l : List α, List.Perm (sortBy le l) l
  | [] => List.Perm.refl _
  | a :: l => by
    simpa [sortBy] using (insertSorted_perm le a (sortBy le l)).trans
      ((sortBy_perm le l).cons a)

theorem mem_insertSorted {le : α → α → Bool} {a x : α} {l : List α} :
    x ∈ insertSorted le a l ↔ x = a ∨ x ∈ l := by
  have := (insertSorted_perm le a l).mem_iff (a := x)
  simpa using this

theorem pairwise_insertSorted {le : α → α → Bool}
    (htot : ∀ a b, le a b = true ∨ le b a = true)
    (htr : ∀ a b c, le a b = true → le b c = true → le a c = true)
    (a : α) : ∀ {l : List α}, l.Pairwise (fun x y => le x y = true) →
      (insertSorted le a l).Pairwise (fun x y => le x y = true) := by
  intro l hl
  induction l with
  | nil => simp [insertSorted]
  | cons b l ih =>
    rcases List.pairwise_cons.mp hl with ⟨hb, hl2⟩
    by_cases h : le a b
    · rw [insertSorted, if_pos h]
      refine List.pairwise_cons.mpr ⟨?_, hl⟩
      intro x hx
      rcases List.mem_cons.mp hx with rfl | hx
      · exact h
      · exact htr a b x h (hb x hx)
    · rw [insertSorted, if_neg h]
      refine List.pairwise_cons.mpr ⟨?_, ih hl2⟩
      intro x hx
      rcases mem_insertSorted.mp hx with rfl | hx
      · rcases htot x b with h2 | h2
        · exact absurd h2 h
        · exact h2
      · exact hb x hx

theorem pairwise_sortBy {le : α → α → Bool}
    (htot : ∀ a b, le a b = true ∨ le b a = true)
    (htr : ∀ a b c, le a b = true → le b c = true → le a c = true) :
    ∀ l : List α, (sortBy le l).Pairwise (fun x y => le x y = true)
  | [] => List.Pairwise.nil
  | a :: l => pairwise_insertSorted htot htr a (pairwise_sortBy htot htr l)

theorem listLe_total : ∀ as bs : List Char, listLe as bs = true ∨ listLe bs as = true
  | [], bs => by cases bs <;> simp [listLe]
  | _ :: _, [] => by simp [listLe]
  | a :: as, b :: bs => by
    rcases listLe_total as bs with h | h <;>
      simp [listLe, h] <;> omega

theorem listLe_trans : ∀ as bs cs : List Char,
    listLe as bs = true → listLe bs cs = true → listLe as cs = true
  | [], bs, cs => by cases cs <;> simp [listLe]
  | a :: as, [], cs => by simp [listLe]
  | a :: as, b :: bs, [] => by simp [listLe]
  | a :: as, b :: bs, c :: cs => by
    have ih := listLe_trans as bs cs
    intro h1 h2
    simp only [listLe] at h1 h2 ⊢
    by_cases hab : a.toNat < b.toNat
    · by_cases hcb : c.toNat < b.toNat
      · simp [hcb, Nat.lt_asymm hcb] at h2
      · have hac : a.toNat < c.toNat := by omega
        simp [hac]
    · by_cases hba : b.toNat < a.toNat
      · simp [hab, hba] at h1
      · by_cases hbc : b.toNat < c.toNat
        · have hac : a.toNat < c.toNat := by omega
          simp [hac]
        · by_cases hcb : c.toNat < b.toNat
          · simp [hbc, hcb] at h2
          · have hac : ¬ a.toNat < c.toNat := by omega
            have hca : ¬ c.toNat < a.toNat := by omega
            simp only [if_neg hac, if_neg hca]
            exact ih (by simpa [hab, hba] using h1) (by simpa [hbc, hcb] using h2)

theorem strLe_total (a b : String) : strLe a b = true ∨ strLe b a = true :=
  listLe_total a.toList b.toList

theorem strLe_trans {a b c : String} (h1 : strLe a b = true) (h2 : strLe b c = true) :
    strLe a c = true :=
  listLe_trans a.toList b.toList c.toList h1 h2

theorem dateLe_total (a b : String × List (Option Rat)) :
    dateLe a b = true ∨ dateLe b a = true :=
  strLe_total a.1 b.1

theorem dateLe_trans (a b c : String × List (Option Rat)) (h1 : dateLe a b = true)
    (h2 : dateLe b c = true) : dateLe a c = true :=
  strLe_trans h1 h2

/-! ### Lemmas: monadic helpers -/

theorem mapMO_some_of {f : α → Option β} {g : α → β} :
    ∀ {l : List α}, (∀ a ∈ l, f a = some (g a)) → mapMO f l = some (l.map g)
  | [], _ => rfl
  | a :: l, h => by
    have ha := h a (List.mem_cons_self a l)
    have hl := mapMO_some_of (fun x hx => h x (List.mem_cons_of_mem a hx))
    simp [mapMO, ha, hl]

theorem mapMO_none_of {f : α → Option β} :
    ∀ {l : List α}, (∃ a ∈ l, f a = none) → mapMO f l = none := by
  intro l h
  induction l with
  | nil => simp at h
  | cons a l ih =>
    rcases h with ⟨x, hx, hfx⟩
    rcases List.mem_cons.mp hx with rfl | hx
    · simp [mapMO, hfx]
    · cases hfa : f a with
      | none => simp [mapMO, hfa]
      | some b => simp [mapMO, hfa, ih ⟨x, hx, hfx⟩]

theorem mapMO_eq_some_unique {f : α → Option β} {g : α → β} {l : List α} {ys : List β}
    (h : ∀ a ∈ l, f a = some (g a)) (heq : mapMO f l = some ys) : ys = l.map g := by
  have := mapMO_some_of h
  rw [this] at heq
  exact (Option.some.injEq _ _ ▸ heq.symm : _)

theorem mapME_ok_of {f : α → Except BlsError β} {g : α → β} :
    ∀ {l : List α}, (∀ a ∈ l, f a = .ok (g a)) → mapME f l = .ok (l.map g)
  | [], _ => rfl
  | a :: l, h => by
    have ha := h a (List.mem_cons_self a l)
    have hl := mapME_ok_of (fun x hx => h x (List.mem_cons_of_mem a hx))
    simp [mapME, ha, hl]

theorem mapME_map_ok_of {f : β → Except BlsError γ} {g1 : α → β} {g2 : α → γ} :
    ∀ {l : List α}, (∀ a ∈ l, f (g1 a) = .ok (g2 a)) →
      mapME f (l.map g1) = .ok (l.map g2)
  | [], _ => rfl
  | a :: l, h => by
    have ha := h a (List.mem_cons_self a l)
    have hl := mapME_map_ok_of (fun x hx => h x (List.mem_cons_of_mem a hx))
    simp [mapME, ha, hl]

theorem foldME_cons (f : σ → α → Except BlsError σ) (s : σ) (a : α) (l : List α) :
    foldME f s (a :: l) =
      match f s a with
      | .error e => .error e
      | .ok s2 => foldME f s2 l := rfl

theorem foldME_append (f : σ → α → Except BlsError σ) :
    ∀ (l1 : List α) (l2 : List α) (s : σ),
      foldME f s (l1 ++ l2) =
        match foldME f s l1 with
        | .error e => .error e
        | .ok s2 => foldME f s2 l2
  | [], l2, s => by simp [foldME]
  | a :: l1, l2, s => by
    cases h : f s a with
    | error e => simp [foldME, h]
    | ok s2 => simpa [foldME, h] using foldME_append f l1 l2 s2

theorem concatMap_singletons {f : α → List β} {g : α → β} :
    ∀ {l : List α}, (∀ a ∈ l, f a = [g a]) → concatMap f l = l.map g
  | [], _ => rfl
  | a :: l, h => by
    have ha := h a (List.mem_cons_self a l)
    have hl := concatMap_singletons (fun x hx => h x (List.mem_cons_of_mem a hx))
    simp [concatMap, ha, hl]

/-! ### Lemmas: decimal digit strings -/

theorem isDigitC_toNat {c : Char} (h : isDigitC c = true) :
    48 ≤ c.toNat ∧ c.toNat ≤ 57 := by
  simpa [isDigitC] using h

theorem toNat_valChar {d : Nat} (h : d < 10) : (valChar d).toNat = 48 + d := by
  have hv : (48 + d).isValidChar := Or.inl (by omega)
  rw [valChar, Char.ofNat, dif_pos hv]
  rfl

theorem charVal_valChar {d : Nat} (h : d < 10) : charVal (valChar d) = d := by
  simp [charVal, toNat_valChar h]

theorem char_eq_of_toNat {c : Char} {n : Nat} (h : c.toNat = n) : c = Char.ofNat n := by
  rw [← h, Char.ofNat_toNat]

theorem valChar_charVal {c : Char} (h : isDigitC c = true) : valChar (charVal c) = c := by
  rcases isDigitC_toNat h with ⟨h1, _⟩
  have he : 48 + (c.toNat - 48) = c.toNat := by omega
  rw [charVal, valChar, he, Char.ofNat_toNat]

theorem charVal_lt_ten {c : Char} (h : isDigitC c = true) : charVal c < 10 := by
  rcases isDigitC_toNat h with ⟨h1, h2⟩
  simp only [charVal]
  omega

theorem isDigitC_ne_dash {c : Char} (h : isDigitC c = true) : c ≠ '-' := by
  intro he
  rw [he] at h
  exact absurd h (by decide)

theorem allDigits_no_dash {cs : List Char} (h : allDigits cs = true) : '-' ∉ cs := by
  intro hm
  have := (List.all_eq_true.mp h) '-' hm
  exact absurd this (by decide)

theorem digitsToNat_append (l : List Char) (c : Char) :
    digitsToNat (l ++ [c]) = 10 * digitsToNat l + charVal c := by
  simp [digitsToNat, List.foldl_append]

theorem digitsToNat_eq_ofDigits (l : List Char) :
    digitsToNat l = Nat.ofDigits 10 ((l.map charVal).reverse) := by
  induction l using List.reverseRecOn with
  | nil => simp [digitsToNat]
  | append_singleton l c ih =>
    rw [digitsToNat_append]
    simp only [List.map_append, List.reverse_append, List.map_cons, List.map_nil,
      List.reverse_cons, List.reverse_nil, List.nil_append, List.singleton_append,
      Nat.ofDigits_cons, ih]
    ring

theorem natToCharsAux_eq : ∀ (fuel n : Nat), n ≤ fuel →
    natToCharsAux fuel n = ((Nat.digits 10 n).map valChar).reverse
  | 0, n, h => by
    have : n = 0 := Nat.le_zero.mp h
    subst this
    simp [natToCharsAux]
  | fuel + 1, 0, _ => by simp [natToCharsAux]
  | fuel + 1, n + 1, h => by
    have hdiv : (n + 1) / 10 ≤ fuel := by
      have := Nat.div_lt_self (Nat.succ_pos n) (by omega : 1 < 10)
      omega
    rw [natToCharsAux, natToCharsAux_eq fuel ((n + 1) / 10) hdiv,
      Nat.digits_def' (by omega : 1 < 10) (Nat.succ_pos n)]
    simp

theorem natToChars_eq {n : Nat} (h : n ≠ 0) :
    natToChars n = ((Nat.digits 10 n).map valChar).reverse := by
  rw [natToChars, if_neg h]
  exact natToCharsAux_eq n n le_rfl

theorem digitsToNat_natToChars (n : Nat) : digitsToNat (natToChars n) = n := by
  by_cases h : n = 0
  · subst h
    decide
  · rw [natToChars_eq h, digitsToNat_eq_ofDigits]
    have hmap : (((Nat.digits 10 n).map valChar).reverse.map charVal).reverse =
        Nat.digits 10 n := by
      rw [List.map_reverse, List.reverse_reverse, List.map_map]
      have : ∀ d ∈ Nat.digits 10 n, (charVal ∘ valChar) d = id d := by
        intro d hd
        have := Nat.digits_lt_base (by omega : 1 < 10) hd
        simp [Function.comp, charVal_valChar this]
      rw [List.map_congr_left this, List.map_id]
    rw [hmap, Nat.ofDigits_digits]

theorem natToChars_digitsToNat {cs : List Char} (hne : cs ≠ [])
    (hd : allDigits cs = true) (h0 : cs.head? ≠ some '0') :
    natToChars (digitsToNat cs) = cs := by
  have hdig : ∀ c ∈ cs, isDigitC c = true := List.all_eq_true.mp hd
  have w1 : ∀ x ∈ (cs.map charVal).reverse, x < 10 := by
    intro x hx
    rw [List.mem_reverse, List.mem_map] at hx
    rcases hx with ⟨c, hc, rfl⟩
    exact charVal_lt_ten (hdig c hc)
  have w2r : (cs.map charVal).reverse ≠ [] := by
    simpa using hne
  have w2 : ∀ h : (cs.map charVal).reverse ≠ [],
      ((cs.map charVal).reverse).getLast h ≠ 0 := by
    intro h
    rw [List.getLast_reverse]
    rcases cs with _ | ⟨c, cs2⟩
    · exact absurd rfl hne
    · have hc : isDigitC c = true := hdig c (List.mem_cons_self c cs2)
      rcases isDigitC_toNat hc with ⟨h48, _⟩
      have hcne : c ≠ '0' := by
        intro he
        exact h0 (by simp [he])
      have : c.toNat ≠ 48 := by
        intro he
        exact hcne (by rw [char_eq_of_toNat he])
      simp only [List.head_cons, List.map_cons]
      show charVal c ≠ 0
      simp only [charVal]
      omega
  have hof := Nat.digits_ofDigits 10 (by omega) ((cs.map charVal).reverse) w1 w2
  rw [digitsToNat_eq_ofDigits]
  have hne0 : Nat.ofDigits 10 ((cs.map charVal).reverse) ≠ 0 := by
    intro he
    rw [he, Nat.digits_zero] at hof
    exact w2r hof.symm
  rw [natToChars_eq hne0, hof, List.map_reverse, List.reverse_reverse, List.map_map]
  have : ∀ c ∈ cs, (valChar ∘ charVal) c = id c := by
    intro c hc
    simp [Function.comp, valChar_charVal (hdig c hc)]
  rw [List.map_congr_left this, List.map_id]

/-! ### Lemmas: splitting and date-key formatting -/

theorem toList_append (a b : String) : (a ++ b).toList = a.toList ++ b.toList :=
  String.data_append a b

theorem toList_mk (l : List Char) : (String.mk l).toList = l := rfl

theorem splitOnChar_no_occ {c : Char} : ∀ {b : List Char}, c ∉ b →
    splitOnChar c b = [b]
  | [], _ => rfl
  | a :: rest, h => by
    have ha : a ≠ c := fun he => h (he ▸ List.mem_cons_self a rest)
    have hr : c ∉ rest := fun hm => h (List.mem_cons_of_mem a hm)
    rw [splitOnChar]
    simp only [if_neg ha, splitOnChar_no_occ hr]

theorem splitOnChar_single {c : Char} : ∀ {a : List Char}, c ∉ a → ∀ {b : List Char},
    c ∉ b → splitOnChar c (a ++ c :: b) = [a, b]
  | [], _, b, hb => by
    rw [List.nil_append, splitOnChar]
    simp [splitOnChar_no_occ hb]
  | x :: a, ha, b, hb => by
    have hx : x ≠ c := fun he => ha (he ▸ List.mem_cons_self x a)
    have ha2 : c ∉ a := fun hm => ha (List.mem_cons_of_mem x hm)
    rw [List.cons_append, splitOnChar]
    simp only [if_neg hx, splitOnChar_single ha2 hb]

theorem padZeros_self {cs : List Char} {w : Nat} (h : cs.length = w) :
    padZeros w cs = cs := by
  simp [padZeros, h]

theorem yearOk_spec {y : String} (h : yearOk y = true) :
    y.toList.length = 4 ∧ allDigits y.toList = true ∧ y.toList.head? ≠ some '0' ∧
      1678 ≤ digitsToNat y.toList ∧ digitsToNat y.toList ≤ 2261 := by
  simp only [yearOk, Bool.and_eq_true, beq_iff_eq, Bool.not_eq_true',
    decide_eq_true_eq, beq_eq_false_iff_ne, ne_eq] at h
  tauto

theorem year_roundtrip {y : String} (h : yearOk y = true) :
    padZeros 4 (natToChars (digitsToNat y.toList)) = y.toList := by
  obtain ⟨h4, hd, h0, _, _⟩ := yearOk_spec h
  have hne : y.toList ≠ [] := by
    intro he
    rw [he] at h4
    simp at h4
  rw [natToChars_digitsToNat hne hd h0]
  exact padZeros_self h4

theorem year_no_dash {y : String} (h : yearOk y = true) : '-' ∉ y.toList :=
  allDigits_no_dash (yearOk_spec h).2.1

theorem tsOk_mid {y m : Nat} (h1 : 1678 ≤ y) (h2 : y ≤ 2261) : tsOk y m = true := by
  simp only [tsOk, Bool.or_eq_true, Bool.and_eq_true, decide_eq_true_eq]
  omega

theorem fmtYM_eq {y : String} (hy : yearOk y = true) {mm : List Char}
    (hmm : padZeros 2 (natToChars (digitsToNat mm)) = mm) :
    fmtYM (digitsToNat y.toList, digitsToNat mm) = y ++ "-" ++ String.mk mm := by
  apply String.ext
  show padZeros 4 (natToChars (digitsToNat y.toList)) ++ '-' :: padZeros 2 (natToChars (digitsToNat mm)) = _
  rw [year_roundtrip hy, hmm]
  show _ = (y ++ "-" ++ String.mk mm).data
  rw [String.data_append, String.data_append]
  simp [List.append_assoc]

theorem pdToDatetimeFmtMY_eval {y : String} (hy : yearOk y = true) {mm : List Char}
    (hmm : allDigits mm = true) (hl : mm.length = 2) (h1 : 1 ≤ digitsToNat mm)
    (h12 : digitsToNat mm ≤ 12) :
    pdToDatetimeFmtMY (String.mk mm ++ "-" ++ y) =
      some (digitsToNat y.toList, digitsToNat mm) := by
  obtain ⟨h4, hd, h0, hy1, hy2⟩ := yearOk_spec hy
  have hsplit : (String.mk mm ++ "-" ++ y).toList = mm ++ '-' :: y.toList := by
    rw [toList_append, toList_append, toList_mk]
    simp [List.append_assoc]
  rw [pdToDatetimeFmtMY, hsplit,
    splitOnChar_single (allDigits_no_dash hmm) (year_no_dash hy)]
  have hyne : y.toList.isEmpty = false := by
    rcases hl2 : y.toList with _ | _
    · rw [hl2] at h4
      simp at h4
    · rfl
  simp [hmm, hl, hd, hyne, h4, h1, h12, tsOk_mid hy1 hy2]
  have hdne : ¬ y.data = [] := by
    intro he
    have h5 : y.toList.length = 0 := by
      rw [show y.toList = y.data from rfl, he]
      rfl
    omega
  have hlen : y.length ≤ 4 := by
    have h6 : y.length = y.toList.length := rfl
    omega
  exact ⟨⟨⟨hd, hdne⟩, hlen⟩, tsOk_mid hy1 hy2⟩

theorem pdToDatetime_q_eval {y : String} (hy : yearOk y = true) {qs : List Char}
    (hqs : allDigits qs = true) (hne : qs ≠ []) (h1 : 1 ≤ digitsToNat qs)
    (h4q : digitsToNat qs ≤ 4) :
    pdToDatetime (y ++ "-" ++ String.mk ('Q' :: qs)) =
      some (digitsToNat y.toList, 3 * (digitsToNat qs - 1) + 1) := by
  obtain ⟨h4, hd, h0, hy1, hy2⟩ := yearOk_spec hy
  have hnodash : '-' ∉ 'Q' :: qs := by
    intro hm
    rcases List.mem_cons.mp hm with he | hm2
    · exact absurd he (by decide)
    · exact allDigits_no_dash hqs hm2
  have hsplit : (y ++ "-" ++ String.mk ('Q' :: qs)).toList = y.toList ++ '-' :: 'Q' :: qs := by
    rw [toList_append, toList_append, toList_mk]
    simp [List.append_assoc]
  rw [pdToDatetime, hsplit, splitOnChar_single (year_no_dash hy) hnodash]
  have hyne : y.toList.isEmpty = false := by
    rcases hl2 : y.toList with _ | _
    · rw [hl2] at h4
      simp at h4
    · rfl
  have hqne : qs.isEmpty = false := by
    rcases qs with _ | _
    · exact absurd rfl hne
    · rfl
  simp [hd, hyne, hqs, hqne, h1, h4q, tsOk_mid hy1 hy2]
  have hdne : ¬ y.data = [] := by
    intro he
    have h5 : y.toList.length = 0 := by
      rw [show y.toList = y.data from rfl, he]
      rfl
    omega
  exact ⟨⟨hd, hdne⟩, tsOk_mid hy1 hy2⟩

/-! ### Lemmas: the period normalizer on well-formed monthly and quarterly frames -/

theorem monthPeriods_facts : ∀ p ∈ monthPeriods,
    p.toList.head? = some 'M' ∧
    stripChar 'M' p = String.mk (p.toList.drop 1) ∧
    allDigits (p.toList.drop 1) = true ∧
    (p.toList.drop 1).length = 2 ∧
    1 ≤ digitsToNat (p.toList.drop 1) ∧
    digitsToNat (p.toList.drop 1) ≤ 12 ∧
    padZeros 2 (natToChars (digitsToNat (p.toList.drop 1))) = p.toList.drop 1 ∧
    (p.toList.drop 1).head? ≠ some 'S' ∧
    (p.toList.drop 1).head? ≠ some 'A' := by decide

theorem quarterPeriods_facts : ∀ p ∈ quarterPeriods,
    p.toList.head? = some 'Q' ∧
    stripChar '0' p = String.mk ('Q' :: ((stripChar '0' p).toList.drop 1)) ∧
    allDigits ((stripChar '0' p).toList.drop 1) = true ∧
    (stripChar '0' p).toList.drop 1 ≠ [] ∧
    1 ≤ digitsToNat ((stripChar '0' p).toList.drop 1) ∧
    digitsToNat ((stripChar '0' p).toList.drop 1) ≤ 4 ∧
    digitsToNat ((qStartMonth p).toList) =
      3 * (digitsToNat ((stripChar '0' p).toList.drop 1) - 1) + 1 ∧
    padZeros 2 (natToChars (digitsToNat ((qStartMonth p).toList))) =
      (qStartMonth p).toList := by decide

/-- The date key the monthly branch constructs for one row: the year, a dash
and the two digits left after stripping the `M` marker. -/
def monthlyKeyRow (r : MergedRow) : String × List (Option Rat) :=
  (r.year ++ "-" ++ String.mk (r.period.toList.drop 1), r.cells)

/-- The date key the quarterly branch actually constructs for one row: the
year, a dash and the first month of the quarter. -/
def quarterlyKeyRow (r : MergedRow) : String × List (Option Rat) :=
  (r.year ++ "-" ++ qStartMonth r.period, r.cells)

theorem organize_df_monthly (df : MergedDf) (hne : df.rows ≠ [])
    (hp : ∀ r ∈ df.rows, r.period ∈ monthPeriods)
    (hy : ∀ r ∈ df.rows, yearOk r.year = true) :
    organize_df df = .ok (CanonDf.mk df.valueCols
      (sortBy dateLe (df.rows.map monthlyKeyRow))) := by
  obtain ⟨r0, rest, hR⟩ := List.exists_cons_of_ne_nil hne
  have hr0 : r0 ∈ df.rows := by
    rw [hR]
    exact List.mem_cons_self r0 rest
  obtain ⟨hM0, _, hdg0, hl20, _, _, _, hS0, hA0⟩ := monthPeriods_facts r0.period (hp r0 hr0)
  have h1 : firstPeriodChar (df.rows.map MergedRow.toORow) = .ok 'M' := by
    rcases hlist : r0.period.toList with _ | ⟨c, t⟩
    · rw [hlist] at hM0
      simp at hM0
    · rw [hlist] at hM0
      simp only [List.head?_cons, Option.some.injEq] at hM0
      subst hM0
      rw [hR, List.map_cons]
      have hdata : r0.period.data = 'M' :: t := hlist
      simp [firstPeriodChar, MergedRow.toORow, hdata]
  have h2 : mTransform (df.rows.map MergedRow.toORow) =
      .ok (df.rows.map (fun r => ORow.mk r.year (String.mk (r.period.toList.drop 1))
        (some (r.year ++ "-" ++ String.mk (r.period.toList.drop 1))) r.cells)) := by
    simp only [mTransform]
    rw [List.map_map]
    have hstep : ∀ r ∈ df.rows,
        ((fun r2 => ORow.mk r2.year (stripChar 'M' r2.period) r2.date r2.cells) ∘
          MergedRow.toORow) r =
          ORow.mk r.year (String.mk (r.period.toList.drop 1)) none r.cells := by
      intro r hr
      obtain ⟨_, hstrip, _, _, _, _, _, _, _⟩ := monthPeriods_facts r.period (hp r hr)
      simp [Function.comp, MergedRow.toORow, hstrip]
    rw [List.map_congr_left hstep]
    have hall : ∀ x ∈ df.rows.map (fun r =>
        ORow.mk r.year (String.mk (r.period.toList.drop 1)) none r.cells),
        (fun r2 => match pdToDatetimeFmtMY (r2.period ++ "-" ++ r2.year) with
          | none => Except.error BlsError.periodParseError
          | some ym => Except.ok (ORow.mk r2.year r2.period (some (fmtYM ym)) r2.cells)) x =
        .ok ((fun x2 => ORow.mk x2.year x2.period
          (some (x2.year ++ "-" ++ x2.period)) x2.cells) x) := by
      intro x hx
      rw [List.mem_map] at hx
      obtain ⟨r, hr, rfl⟩ := hx
      obtain ⟨_, _, hdig, hl2, hm1, hm12, hpad, _, _⟩ := monthPeriods_facts r.period (hp r hr)
      simp only [pdToDatetimeFmtMY_eval (hy r hr) hdig hl2 hm1 hm12,
        fmtYM_eq (hy r hr) hpad]
    rw [mapME_ok_of hall, List.map_map]
    rfl
  have h3 : firstPeriodChar (df.rows.map (fun r =>
      ORow.mk r.year (String.mk (r.period.toList.drop 1))
        (some (r.year ++ "-" ++ String.mk (r.period.toList.drop 1))) r.cells)) =
      .ok (r0.period.toList.drop 1).headI ∧
      (r0.period.toList.drop 1).headI ≠ 'S' ∧ (r0.period.toList.drop 1).headI ≠ 'A' := by
    rcases hdl : r0.period.toList.drop 1 with _ | ⟨c, t⟩
    · rw [hdl] at hl20
      simp at hl20
    · rw [hdl] at hS0 hA0
      have hcS : c ≠ 'S' := fun he => hS0 (by rw [he]; rfl)
      have hcA : c ≠ 'A' := fun he => hA0 (by rw [he]; rfl)
      refine ⟨?_, by simp [hcS, hdl], by simp [hcA, hdl]⟩
      rw [hR, List.map_cons]
      have hdl2 : r0.period.data.tail = c :: t := by
        rw [← List.drop_one]
        exact hdl
      simp [firstPeriodChar, toList_mk, hdl, hdl2]
  have h4 : setIndexDate (df.rows.map (fun r =>
      ORow.mk r.year (String.mk (r.period.toList.drop 1))
        (some (r.year ++ "-" ++ String.mk (r.period.toList.drop 1))) r.cells)) =
      .ok (df.rows.map monthlyKeyRow) := by
    simp only [setIndexDate]
    have hall : ∀ x ∈ df.rows.map (fun r =>
        ORow.mk r.year (String.mk (r.period.toList.drop 1))
          (some (r.year ++ "-" ++ String.mk (r.period.toList.drop 1))) r.cells),
        (fun r2 => match r2.date with
          | some d => Except.ok (d, r2.cells)
          | none => Except.error BlsError.keyError) x =
        .ok ((fun x2 => (x2.date.getD "", x2.cells)) x) := by
      intro x hx
      rw [List.mem_map] at hx
      obtain ⟨r, hr, rfl⟩ := hx
      rfl
    rw [mapME_ok_of hall, List.map_map]
    rfl
  obtain ⟨h3a, h3S, h3A⟩ := h3
  simp only [organize_df, h1, if_neg (by decide : ¬ ('M' : Char) = 'Q'),
    if_pos (rfl : ('M' : Char) = 'M'), eq_self_iff_true, if_true, h2, h3a,
    if_neg h3S, if_neg h3A, h4]

theorem organize_df_quarterly (df : MergedDf) (hne : df.rows ≠ [])
    (hp : ∀ r ∈ df.rows, r.period ∈ quarterPeriods)
    (hy : ∀ r ∈ df.rows, yearOk r.year = true) :
    organize_df df = .ok (CanonDf.mk df.valueCols
      (sortBy dateLe (df.rows.map quarterlyKeyRow))) := by
  obtain ⟨r0, rest, hR⟩ := List.exists_cons_of_ne_nil hne
  have hr0 : r0 ∈ df.rows := by
    rw [hR]
    exact List.mem_cons_self r0 rest
  obtain ⟨hQ0, hstrip0, _, _, _, _, _, _⟩ := quarterPeriods_facts r0.period (hp r0 hr0)
  have h1 : firstPeriodChar (df.rows.map MergedRow.toORow) = .ok 'Q' := by
    rcases hlist : r0.period.toList with _ | ⟨c, t⟩
    · rw [hlist] at hQ0
      simp at hQ0
    · rw [hlist] at hQ0
      simp only [List.head?_cons, Option.some.injEq] at hQ0
      subst hQ0
      rw [hR, List.map_cons]
      have hdata : r0.period.data = 'Q' :: t := hlist
      simp [firstPeriodChar, MergedRow.toORow, hdata]
  have h2 : qTransform (df.rows.map MergedRow.toORow) =
      .ok (df.rows.map (fun r => ORow.mk r.year (stripChar '0' r.period)
        (some (r.year ++ "-" ++ qStartMonth r.period)) r.cells)) := by
    simp only [qTransform]
    rw [List.map_map]
    apply mapME_map_ok_of
    intro r hr
    obtain ⟨_, hstrip, hdg, hqne, hq1, hq4, hval, hpad⟩ :=
      quarterPeriods_facts r.period (hp r hr)
    show (match pdToDatetime (r.year ++ "-" ++ stripChar '0' r.period) with
      | none => Except.error BlsError.periodParseError
      | some ym => Except.ok (ORow.mk r.year (stripChar '0' r.period)
          (some (fmtYM ym)) r.cells)) = _
    rw [hstrip]
    simp only [pdToDatetime_q_eval (hy r hr) hdg hqne hq1 hq4]
    rw [← hval, fmtYM_eq (hy r hr) hpad, ← hstrip]
    rfl
  have h3 : firstPeriodChar (df.rows.map (fun r =>
      ORow.mk r.year (stripChar '0' r.period)
        (some (r.year ++ "-" ++ qStartMonth r.period)) r.cells)) = .ok 'Q' := by
    rw [hR, List.map_cons]
    have hdataT : (stripChar '0' r0.period).toList =
        'Q' :: ((stripChar '0' r0.period).toList.drop 1) := by
      conv_lhs => rw [hstrip0]
      rfl
    simp only [firstPeriodChar]
    rw [hdataT]
  have h4 : setIndexDate (df.rows.map (fun r =>
      ORow.mk r.year (stripChar '0' r.period)
        (some (r.year ++ "-" ++ qStartMonth r.period)) r.cells)) =
      .ok (df.rows.map quarterlyKeyRow) := by
    simp only [setIndexDate]
    apply mapME_map_ok_of
    intro r hr
    rfl
  simp only [organize_df, h1, eq_self_iff_true, if_true, h2, h3,
    if_neg (by decide : ¬ ('Q' : Char) = 'M'), if_neg (by decide : ¬ ('Q' : Char) = 'S'),
    if_neg (by decide : ¬ ('Q' : Char) = 'A'), h4]

/-! ### Lemmas: the series merger -/

theorem mergeOuter_valueCols (acc : MergedDf) (col : String)
    (srows : List ((String × String) × Option Rat)) :
    (mergeOuter acc col srows).valueCols =
      (if col ∈ acc.valueCols then
        acc.valueCols.map (fun c => if c = col then c ++ "_x" else c)
      else acc.valueCols) ++
        [if col ∈ acc.valueCols then col ++ "_y" else col] := rfl

theorem seriesFrame_eq {data : List Obs} (h : ∀ o ∈ data, obsCell o ≠ none) :
    seriesFrame data = some (data.map obsKV) := by
  rw [seriesFrame]
  apply mapMO_some_of
  intro o ho
  rcases hc : obsCell o with _ | v
  · exact absurd hc (h o ho)
  · simp [obsKV, hc]

theorem filter_obsKV_eq {data : List Obs} (hn : (data.map Obs.key).Nodup)
    (k : String × String) :
    (data.map obsKV).filter (fun kv => kv.1 == k) =
      match data.find? (fun o => o.key == k) with
      | none => []
      | some o => [obsKV o] := by
  induction data with
  | nil => rfl
  | cons o rest ih =>
    rw [List.map_cons] at hn ⊢
    rcases List.nodup_cons.mp hn with ⟨hhead, htail⟩
    by_cases hk : (o.key == k) = true
    · rw [List.filter_cons, List.find?_cons]
      have hkk : ((obsKV o).1 == k) = true := hk
      rw [if_pos hkk, hk]
      have hnilf : (rest.map obsKV).filter (fun kv => kv.1 == k) = [] := by
        rw [List.filter_eq_nil_iff]
        intro kv hkv
        rcases List.mem_map.mp hkv with ⟨o2, ho2, rfl⟩
        have hko : o.key = k := beq_iff_eq.mp hk
        intro hbeq
        have h2 : o2.key = k := beq_iff_eq.mp hbeq
        have hmem : o2.key ∈ rest.map Obs.key := List.mem_map_of_mem Obs.key ho2
        rw [h2, ← hko] at hmem
        exact hhead hmem
      rw [hnilf]
    · have hk2 : (o.key == k) = false := by
        simpa using hk
      have hkk : ((obsKV o).1 == k) = false := hk2
      rw [List.filter_cons, List.find?_cons, if_neg (by simp [hkk]), hk2, ih htail]

theorem find?_key_of_mem {data : List Obs} (hn : (data.map Obs.key).Nodup) {o : Obs}
    (ho : o ∈ data) : data.find? (fun o2 => o2.key == o.key) = some o := by
  induction data with
  | nil => simp at ho
  | cons o2 rest ih =>
    rw [List.map_cons] at hn
    rcases List.nodup_cons.mp hn with ⟨hhead, htail⟩
    rw [List.find?_cons]
    by_cases hk : (o2.key == o.key) = true
    · rw [hk]
      rcases List.mem_cons.mp ho with rfl | hor
      · rfl
      · exact absurd ((beq_iff_eq.mp hk) ▸ List.mem_map_of_mem Obs.key hor) hhead
    · rw [Bool.not_eq_true] at hk
      rw [hk]
      rcases List.mem_cons.mp ho with rfl | hor
      · simp at hk
      · exact ih htail hor

theorem valueAt_eq_none {p : SeriesPayload} {k : String × String}
    (h : k ∉ payloadKeys p) : valueAt p k = none := by
  rw [valueAt]
  have hf : p.data.find? (fun o => o.key == k) = none := by
    rw [List.find?_eq_none]
    intro o ho hbeq
    exact h ((beq_iff_eq.mp hbeq) ▸ List.mem_map_of_mem Obs.key ho)
  rw [hf]

theorem valueAt_obsKV {p : SeriesPayload} (hn : (payloadKeys p).Nodup) {o : Obs}
    (ho : o ∈ p.data) : valueAt p o.key = (obsKV o).2 := by
  rw [valueAt, find?_key_of_mem hn ho]
  rfl

theorem any_key_iff {rows : List MergedRow} {k : String × String} :
    rows.any (fun r => k == r.key) = true ↔ k ∈ rows.map MergedRow.key := by
  rw [List.any_eq_true]
  constructor
  · rintro ⟨r, hr, hbeq⟩
    exact (beq_iff_eq.mp hbeq) ▸ List.mem_map_of_mem MergedRow.key hr
  · intro hm
    rcases List.mem_map.mp hm with ⟨r, hr, rfl⟩
    exact ⟨r, hr, beq_iff_eq.mpr rfl⟩

theorem map_filter_comp {f : α → β} {q : β → Bool} :
    ∀ l : List α, (l.filter (fun a => q (f a))).map f = (l.map f).filter q
  | [] => rfl
  | a :: l => by
    by_cases h : q (f a) = true
    · simp [List.filter_cons, h, map_filter_comp l]
    · have h2 : q (f a) = false := by simpa using h
      simp [List.filter_cons, h2, map_filter_comp l]

theorem mergeOuter_invariant {ql : List SeriesPayload} {acc : MergedDf}
    (hinv : mergeInvariant ql acc) (p : SeriesPayload)
    (hkeys : (payloadKeys p).Nodup)
    (hfresh : p.seriesID ∉ ql.map (fun q => q.seriesID)) :
    mergeInvariant (ql ++ [p]) (mergeOuter acc p.seriesID (p.data.map obsKV)) := by
  obtain ⟨hcols, hnodup, hiff, hcells⟩ := hinv
  have hov : ¬ p.seriesID ∈ acc.valueCols := by
    rw [hcols]
    exact hfresh
  have hleft : concatMap (fun r =>
      let ms := (p.data.map obsKV).filter (fun kv => kv.1 == r.key)
      match ms with
      | [] => [MergedRow.mk r.year r.period (r.cells ++ [none])]
      | _ => ms.map (fun kv => MergedRow.mk r.year r.period (r.cells ++ [kv.2])))
      acc.rows = acc.rows.map (extendRow p) := by
    apply concatMap_singletons
    intro r hr
    simp only
    rw [filter_obsKV_eq hkeys r.key]
    rcases hfind : p.data.find? (fun o => o.key == r.key) with _ | o
    · have hv : valueAt p r.key = none := by
        rw [valueAt, hfind]
      simp only [hfind, extendRow, hv]
    · have hv : valueAt p r.key = (obsKV o).2 := by
        rw [valueAt, hfind]
        rfl
      simp only [hfind, extendRow, hv]
      rfl
  have hvc : (mergeOuter acc p.seriesID (p.data.map obsKV)).valueCols =
      acc.valueCols ++ [p.seriesID] := by
    simp only [mergeOuter]
    rw [if_neg hov, if_neg hov]
  have hrows : (mergeOuter acc p.seriesID (p.data.map obsKV)).rows =
      acc.rows.map (extendRow p) ++
        ((p.data.map obsKV).filter
          (fun kv => !acc.rows.any (fun r => kv.1 == r.key))).map
          (fun kv => MergedRow.mk kv.1.1 kv.1.2
            (acc.valueCols.map (fun _ => none) ++ [kv.2])) := by
    simp only [mergeOuter]
    rw [hleft]
  have hlkeys : (acc.rows.map (extendRow p)).map MergedRow.key =
      acc.rows.map MergedRow.key := by
    rw [List.map_map]
    rfl
  have hrkeys : (((p.data.map obsKV).filter
      (fun kv => !acc.rows.any (fun r => kv.1 == r.key))).map
      (fun kv => MergedRow.mk kv.1.1 kv.1.2
        (acc.valueCols.map (fun _ => none) ++ [kv.2]))).map MergedRow.key =
      (payloadKeys p).filter (fun k => !acc.rows.any (fun r => k == r.key)) := by
    rw [List.map_map]
    have he1 : (MergedRow.key ∘ fun kv => MergedRow.mk kv.1.1 kv.1.2
        (acc.valueCols.map (fun _ => none) ++ [kv.2])) =
        (Prod.fst : ((String × String) × Option Rat) → String × String) := by
      funext kv
      rfl
    rw [he1, map_filter_comp (f := (Prod.fst : ((String × String) × Option Rat) → String × String))
      (q := fun k => !acc.rows.any (fun r => k == r.key))]
    have he2 : (p.data.map obsKV).map Prod.fst = payloadKeys p := by
      rw [List.map_map]
      rfl
    rw [he2]
  have hkeyseq : ((mergeOuter acc p.seriesID (p.data.map obsKV)).rows.map MergedRow.key) =
      acc.rows.map MergedRow.key ++
        (payloadKeys p).filter (fun k => !acc.rows.any (fun r => k == r.key)) := by
    rw [hrows, List.map_append, hlkeys, hrkeys]
  have hnotin : ∀ k ∈ (payloadKeys p).filter
      (fun k => !acc.rows.any (fun r => k == r.key)), k ∉ acc.rows.map MergedRow.key := by
    intro k hk
    rcases List.mem_filter.mp hk with ⟨_, hpred⟩
    intro hmem
    rw [Bool.not_eq_true', ← Bool.not_eq_true] at hpred
    exact hpred (any_key_iff.mpr hmem)
  refine ⟨?_, ?_, ?_, ?_⟩
  · rw [hvc, hcols, List.map_append]
    rfl
  · rw [hkeyseq]
    refine List.Nodup.append hnodup (List.Nodup.filter _ hkeys) ?_
    intro k hk1 hk2
    exact hnotin k hk2 hk1
  · intro k
    rw [hkeyseq, List.mem_append]
    constructor
    · rintro (hk | hk)
      · rcases (hiff k).mp hk with ⟨q, hq, hkq⟩
        exact ⟨q, List.mem_append_left _ hq, hkq⟩
      · exact ⟨p, List.mem_append_right _ (List.mem_singleton_self p),
          (List.mem_filter.mp hk).1⟩
    · rintro ⟨q, hq, hkq⟩
      rcases List.mem_append.mp hq with hq | hq
      · exact Or.inl ((hiff k).mpr ⟨q, hq, hkq⟩)
      · rw [List.mem_singleton] at hq
        subst hq
        by_cases hacc : k ∈ acc.rows.map MergedRow.key
        · exact Or.inl hacc
        · refine Or.inr (List.mem_filter.mpr ⟨hkq, ?_⟩)
          rw [Bool.not_eq_true']
          exact Bool.eq_false_iff.mpr (fun hany => hacc (any_key_iff.mp hany))
  · intro x hx
    rw [hrows] at hx
    rcases List.mem_append.mp hx with hx | hx
    · rcases List.mem_map.mp hx with ⟨r, hr, rfl⟩
      have hkey : (extendRow p r).key = r.key := rfl
      rw [hkey, List.map_append]
      have : (extendRow p r).cells = r.cells ++ [valueAt p r.key] := rfl
      rw [this, hcells r hr]
      rfl
    · rcases List.mem_map.mp hx with ⟨kv, hkv, rfl⟩
      rcases List.mem_filter.mp hkv with ⟨hkvs, hpred⟩
      rcases List.mem_map.mp hkvs with ⟨o, ho, rfl⟩
      have hkey : (MergedRow.mk (obsKV o).1.1 (obsKV o).1.2
          (acc.valueCols.map (fun _ => none) ++ [(obsKV o).2])).key = o.key := rfl
      have hcellseq : (MergedRow.mk (obsKV o).1.1 (obsKV o).1.2
          (acc.valueCols.map (fun _ => none) ++ [(obsKV o).2])).cells =
          acc.valueCols.map (fun _ => none) ++ [(obsKV o).2] := rfl
      rw [hkey, hcellseq, List.map_append]
      have hnacc : o.key ∉ acc.rows.map MergedRow.key := by
        intro hmem
        rw [Bool.not_eq_true', ← Bool.not_eq_true] at hpred
        exact hpred (any_key_iff.mpr hmem)
      have hnone : ∀ q ∈ ql, valueAt q o.key = none := by
        intro q hq
        by_cases hkq : o.key ∈ payloadKeys q
        · exact absurd ((hiff o.key).mpr ⟨q, hq, hkq⟩) hnacc
        · exact valueAt_eq_none hkq
      have hql : ql.map (fun q => valueAt q o.key) = ql.map (fun _ => none) :=
        List.map_congr_left (fun q hq => hnone q hq)
      have hcolsnone : acc.valueCols.map (fun _ => (none : Option Rat)) =
          ql.map (fun _ => none) := by
        rw [hcols, List.map_map]
        rfl
      rw [hcolsnone, ← hql]
      have hsingle : List.map (fun q => valueAt q o.key) [p] = [(obsKV o).2] := by
        simp [valueAt_obsKV hkeys ho]
      rw [hsingle]

theorem construct_fold_invariant : ∀ (ps ql : List SeriesPayload) (acc : MergedDf),
    mergeInvariant ql acc →
    (∀ p ∈ ps, ∀ o ∈ p.data, obsCell o ≠ none) →
    (∀ p ∈ ps, (payloadKeys p).Nodup) →
    ((ql ++ nonEmptyPayloads ps).map (fun p => p.seriesID)).Nodup →
    ∃ df, foldME constructStep acc ps = .ok df ∧
      mergeInvariant (ql ++ nonEmptyPayloads ps) df
  | [], ql, acc, hinv, _, _, _ => by
    refine ⟨acc, rfl, ?_⟩
    simpa [nonEmptyPayloads] using hinv
  | p :: rest, ql, acc, hinv, hparse, hkeys, hids => by
    by_cases hemp : p.data.isEmpty = true
    · have hnep : nonEmptyPayloads (p :: rest) = nonEmptyPayloads rest := by
        simp [nonEmptyPayloads, List.filter_cons, hemp]
      have hstep : constructStep acc p = .ok acc := by
        simp [constructStep, hemp]
      rw [hnep] at hids
      obtain ⟨df, hdf, hinv2⟩ := construct_fold_invariant rest ql acc hinv
        (fun q hq => hparse q (List.mem_cons_of_mem p hq))
        (fun q hq => hkeys q (List.mem_cons_of_mem p hq)) hids
      refine ⟨df, ?_, ?_⟩
      · rw [foldME, hstep]
        exact hdf
      · rw [hnep]
        exact hinv2
    · have hmem : p ∈ p :: rest := List.mem_cons_self p rest
      have hnep : nonEmptyPayloads (p :: rest) = p :: nonEmptyPayloads rest := by
        simp [nonEmptyPayloads, List.filter_cons, hemp]
      have hsf : seriesFrame p.data = some (p.data.map obsKV) :=
        seriesFrame_eq (hparse p hmem)
      have hstep : constructStep acc p =
          .ok (mergeOuter acc p.seriesID (p.data.map obsKV)) := by
        simp [constructStep, hemp, hsf]
      rw [hnep] at hids
      have hids2 : (((ql ++ [p]) ++ nonEmptyPayloads rest).map
          (fun q => q.seriesID)).Nodup := by
        rw [List.append_assoc, List.singleton_append]
        exact hids
      have hfresh : p.seriesID ∉ ql.map (fun q => q.seriesID) := by
        rw [List.map_append] at hids
        rcases List.nodup_append.mp hids with ⟨_, _, hdisj⟩
        intro hmem2
        exact hdisj hmem2 (by simp)
      have hinv2 := mergeOuter_invariant hinv p (hkeys p hmem) hfresh
      obtain ⟨df, hdf, hinv3⟩ := construct_fold_invariant rest (ql ++ [p])
        (mergeOuter acc p.seriesID (p.data.map obsKV)) hinv2
        (fun q hq => hparse q (List.mem_cons_of_mem p hq))
        (fun q hq => hkeys q (List.mem_cons_of_mem p hq)) hids2
      refine ⟨df, ?_, ?_⟩
      · rw [foldME, hstep]
        exact hdf
      · rw [hnep, ← List.singleton_append, ← List.append_assoc]
        exact hinv3

/-! ### Claim theorems -/

/-- C2: merging a sequence of per-series payloads produces a table with
exactly one row per distinct `(year, period)` pair occurring in any payload
with at least one observation (row keys are duplicate-free and range over
exactly those pairs); payloads with zero observations contribute no rows and
no columns (only `nonEmptyPayloads` appear in the invariant); and a cell for
a series lacking an observation at a row's key is absent (`none`), never
zero. -/
theorem claim_C2_merge_outer_join (ps : List SeriesPayload)
    (hparse : ∀ p ∈ ps, ∀ o ∈ p.data, obsCell o ≠ none)
    (hkeys : ∀ p ∈ ps, (payloadKeys p).Nodup)
    (hids : ((nonEmptyPayloads ps).map (fun p => p.seriesID)).Nodup) :
    ∃ df, construct_df ps = .ok df ∧ mergeInvariant (nonEmptyPayloads ps) df ∧
      ∀ r ∈ df.rows, ∀ i, (hi : i < (nonEmptyPayloads ps).length) →
        r.key ∉ payloadKeys ((nonEmptyPayloads ps).get ⟨i, hi⟩) →
        r.cells.getD i none = none := by
  have hbase : mergeInvariant [] (MergedDf.mk [] []) := by
    refine ⟨rfl, List.nodup_nil, ?_, ?_⟩
    · intro k
      simp
    · intro r hr
      simp at hr
  have hids2 : ((([] : List SeriesPayload) ++ nonEmptyPayloads ps).map
      (fun p => p.seriesID)).Nodup := by
    simpa using hids
  obtain ⟨df, hdf, hinv⟩ :=
    construct_fold_invariant ps [] (MergedDf.mk [] []) hbase hparse hkeys hids2
  rw [List.nil_append] at hinv
  refine ⟨df, hdf, hinv, ?_⟩
  intro r hr i hi hnk
  obtain ⟨_, _, _, hcells⟩ := hinv
  rw [hcells r hr, List.getD_eq_getElem?_getD, List.getElem?_map,
    List.getElem?_eq_getElem hi]
  simpa using valueAt_eq_none hnk

/-- Witness for C2 at a concrete input: two series payloads, the second
lacking an observation at `("2020", "M12")`, merge into one row per distinct
key with the missing cell absent. -/
theorem claim_C2_merge_outer_join_witness :
    (∃ df, construct_df
        [SeriesPayload.mk "S1" [Obs.mk "2020" "M03" none, Obs.mk "2020" "M12" none],
         SeriesPayload.mk "S2" [Obs.mk "2020" "M03" none]] = .ok df ∧
      mergeInvariant (nonEmptyPayloads
        [SeriesPayload.mk "S1" [Obs.mk "2020" "M03" none, Obs.mk "2020" "M12" none],
         SeriesPayload.mk "S2" [Obs.mk "2020" "M03" none]]) df ∧
      ∀ r ∈ df.rows, ∀ i, (hi : i < (nonEmptyPayloads
        [SeriesPayload.mk "S1" [Obs.mk "2020" "M03" none, Obs.mk "2020" "M12" none],
         SeriesPayload.mk "S2" [Obs.mk "2020" "M03" none]]).length) →
        r.key ∉ payloadKeys ((nonEmptyPayloads
          [SeriesPayload.mk "S1" [Obs.mk "2020" "M03" none, Obs.mk "2020" "M12" none],
           SeriesPayload.mk "S2" [Obs.mk "2020" "M03" none]]).get ⟨i, hi⟩) →
        r.cells.getD i none = none) ∧
    construct_df
        [SeriesPayload.mk "S1" [Obs.mk "2020" "M03" none, Obs.mk "2020" "M12" none],
         SeriesPayload.mk "S2" [Obs.mk "2020" "M03" none]] =
      .ok (MergedDf.mk ["S1", "S2"]
        [MergedRow.mk "2020" "M03" [none, none], MergedRow.mk "2020" "M12" [none, none]]) := by
  constructor
  · exact claim_C2_merge_outer_join _ (by decide) (by decide) (by decide)
  · decide

/-- C4: when any input payload contains an observation whose value is a
string that `pd.to_numeric` cannot parse (and is not the missing-value
sentinel, modelled as a `none` cell), the merger fails with the data
conversion error; no merged table is produced at all, so no partial row is
admitted. -/
theorem claim_C4_conversion_error (ps : List SeriesPayload)
    (h : ∃ p ∈ ps, ∃ o ∈ p.data, ∃ s, o.value = some s ∧ parseNumeric s = none) :
    construct_df ps = .error .dataConversionError := by
  rw [construct_df]
  suffices haux : ∀ (ps2 : List SeriesPayload) (acc : MergedDf),
      (∃ p ∈ ps2, ∃ o ∈ p.data, ∃ s, o.value = some s ∧ parseNumeric s = none) →
      foldME constructStep acc ps2 = .error .dataConversionError from
    haux ps (MergedDf.mk [] []) h
  intro ps2
  induction ps2 with
  | nil =>
    intro acc h2
    simp at h2
  | cons p rest ih =>
    intro acc h2
    by_cases hbad : ∃ o ∈ p.data, ∃ s, o.value = some s ∧ parseNumeric s = none
    · obtain ⟨o, ho, s, hov, hps⟩ := hbad
      have hemp : p.data.isEmpty = false := by
        rcases hd : p.data with _ | _
        · rw [hd] at ho
          simp at ho
        · rfl
      have hsf : seriesFrame p.data = none := by
        apply mapMO_none_of
        refine ⟨o, ho, ?_⟩
        simp [obsCell, hov, hps]
      have hstep : constructStep acc p = .error .dataConversionError := by
        simp [constructStep, hemp, hsf]
      rw [foldME, hstep]
    · have hrest : ∃ p2 ∈ rest, ∃ o ∈ p2.data, ∃ s, o.value = some s ∧
          parseNumeric s = none := by
        obtain ⟨p2, hp2, hbad2⟩ := h2
        rcases List.mem_cons.mp hp2 with rfl | hp2r
        · exact absurd hbad2 hbad
        · exact ⟨p2, hp2r, hbad2⟩
      cases hstep : constructStep acc p with
      | error e =>
        have he : e = .dataConversionError := by
          rw [constructStep] at hstep
          split at hstep
          · exact absurd hstep (by simp)
          · split at hstep
            · exact (Except.error.injEq _ _ ▸ hstep.symm : _)
            · exact absurd hstep (by simp)
        subst he
        rw [foldME, hstep]
      | ok acc2 =>
        rw [foldME, hstep]
        exact ih acc2 hrest

/-- Witness for C4 at a concrete input: a single payload whose only
observation carries the non-numeric value `"abc"`. -/
theorem claim_C4_conversion_error_witness :
    (∃ p ∈ [SeriesPayload.mk "S1" [Obs.mk "2020" "M03" (some "abc")]],
      ∃ o ∈ p.data, ∃ s, o.value = some s ∧ parseNumeric s = none) ∧
    construct_df [SeriesPayload.mk "S1" [Obs.mk "2020" "M03" (some "abc")]] =
      .error .dataConversionError := by
  have hw : ∃ p ∈ [SeriesPayload.mk "S1" [Obs.mk "2020" "M03" (some "abc")]],
      ∃ o ∈ p.data, ∃ s, o.value = some s ∧ parseNumeric s = none :=
    ⟨SeriesPayload.mk "S1" [Obs.mk "2020" "M03" (some "abc")], by decide,
      Obs.mk "2020" "M03" (some "abc"), by decide, "abc", rfl, by decide⟩
  exact ⟨hw, claim_C4_conversion_error _ hw⟩

/-- C5: when every payload has zero observations, the merger returns the
initial empty frame (no rows, no value columns) without an error, and the
pipeline stores `None` for the canonical table (the `len(raw_df) > 0` guard)
instead of failing. -/
theorem claim_C5_all_empty_payloads (ps : List SeriesPayload)
    (h : ∀ p ∈ ps, p.data = []) :
    construct_df ps = .ok (MergedDf.mk [] []) ∧
    buildFrames ps = .ok (MergedDf.mk [] [], none) := by
  have hc : ∀ (ps2 : List SeriesPayload) (acc : MergedDf), (∀ p ∈ ps2, p.data = []) →
      foldME constructStep acc ps2 = .ok acc := by
    intro ps2
    induction ps2 with
    | nil =>
      intro acc _
      rfl
    | cons p rest ih =>
      intro acc h2
      have hemp : p.data.isEmpty = true := by
        rw [h2 p (List.mem_cons_self p rest)]
        rfl
      have hstep : constructStep acc p = .ok acc := by
        simp [constructStep, hemp]
      rw [foldME, hstep]
      exact ih acc (fun q hq => h2 q (List.mem_cons_of_mem p hq))
  have h1 : construct_df ps = .ok (MergedDf.mk [] []) := hc ps (MergedDf.mk [] []) h
  refine ⟨h1, ?_⟩
  simp only [buildFrames, h1]
  simp

/-- Witness for C5 at a concrete input: one series with an empty observation
list. -/
theorem claim_C5_all_empty_payloads_witness :
    (∀ p ∈ [SeriesPayload.mk "S1" []], p.data = []) ∧
    construct_df [SeriesPayload.mk "S1" []] = .ok (MergedDf.mk [] []) ∧
    buildFrames [SeriesPayload.mk "S1" []] = .ok (MergedDf.mk [] [], none) :=
  ⟨by decide, claim_C5_all_empty_payloads _ (by decide)⟩

/-- C6 counterexample: two payloads sharing the identifier `"S1"` do not make
the merger fail; the merge succeeds silently and the colliding value columns
are renamed with pandas' default `_x`/`_y` suffixes. -/
theorem claim_C6_counterexample :
    construct_df [SeriesPayload.mk "S1" [Obs.mk "2020" "M03" none],
        SeriesPayload.mk "S1" [Obs.mk "2020" "M03" none]] =
      .ok (MergedDf.mk ["S1_x", "S1_y"] [MergedRow.mk "2020" "M03" [none, none]]) := by
  decide

/-- C6 amended: a merge of two payloads with the same series identifier is
not surfaced as an input-contract violation; it succeeds, and the colliding
value columns are silently disambiguated into `id_x` and `id_y` by the outer
join's merge suffixes. -/
theorem claim_C6_duplicate_ids_suffixed (p1 p2 : SeriesPayload)
    (hid : p2.seriesID = p1.seriesID)
    (h1 : p1.data ≠ []) (h2 : p2.data ≠ [])
    (hp1 : ∀ o ∈ p1.data, obsCell o ≠ none) (hp2 : ∀ o ∈ p2.data, obsCell o ≠ none) :
    ∃ df, construct_df [p1, p2] = .ok df ∧
      df.valueCols = [p1.seriesID ++ "_x", p1.seriesID ++ "_y"] := by
  have hemp1 : p1.data.isEmpty = false := by
    rcases hd : p1.data with _ | _
    · exact absurd hd h1
    · rfl
  have hemp2 : p2.data.isEmpty = false := by
    rcases hd : p2.data with _ | _
    · exact absurd hd h2
    · rfl
  have hstep1 : constructStep (MergedDf.mk [] []) p1 =
      .ok (mergeOuter (MergedDf.mk [] []) p1.seriesID (p1.data.map obsKV)) := by
    simp [constructStep, hemp1, seriesFrame_eq hp1]
  have hstep2 : constructStep (mergeOuter (MergedDf.mk [] []) p1.seriesID
        (p1.data.map obsKV)) p2 =
      .ok (mergeOuter (mergeOuter (MergedDf.mk [] []) p1.seriesID (p1.data.map obsKV))
        p2.seriesID (p2.data.map obsKV)) := by
    simp [constructStep, hemp2, seriesFrame_eq hp2]
  have hvc1 : (mergeOuter (MergedDf.mk [] []) p1.seriesID (p1.data.map obsKV)).valueCols =
      [p1.seriesID] := by
    simp [mergeOuter]
  refine ⟨mergeOuter (mergeOuter (MergedDf.mk [] []) p1.seriesID (p1.data.map obsKV))
    p2.seriesID (p2.data.map obsKV), ?_, ?_⟩
  · simp only [construct_df, foldME, hstep1, hstep2]
  · have hmem : p2.seriesID ∈ [p1.seriesID] := by
      rw [hid]
      exact List.mem_singleton_self _
    rw [mergeOuter_valueCols, hvc1, if_pos hmem, if_pos hmem, List.map_singleton,
      if_pos hid.symm, hid]
    rfl

/-- Witness for C6 amended at a concrete input. -/
theorem claim_C6_duplicate_ids_suffixed_witness :
    ∃ df, construct_df [SeriesPayload.mk "S1" [Obs.mk "2020" "M03" none],
        SeriesPayload.mk "S1" [Obs.mk "2021" "M03" none]] = .ok df ∧
      df.valueCols = ["S1" ++ "_x", "S1" ++ "_y"] :=
  claim_C6_duplicate_ids_suffixed
    (SeriesPayload.mk "S1" [Obs.mk "2020" "M03" none])
    (SeriesPayload.mk "S1" [Obs.mk "2021" "M03" none])
    rfl (by decide) (by decide) (by decide) (by decide)

/-- C3 counterexample: with the QCEW reference table containing only code
`"11111"`, resolving `["ENU22222000", "ENU11111000"]` raises the unknown
geography error for the first identifier and the whole resolution aborts: no
location map is produced at all, although the second identifier resolves
fine on its own. -/
theorem claim_C3_counterexample :
    get_location [("11111", "Place A")] [] [] ["ENU22222000", "ENU11111000"] =
      .error .unknownGeography ∧
    get_location [("11111", "Place A")] [] [] ["ENU11111000"] =
      .ok [("ENU11111000", "Place A")] :=
  ⟨by decide, by decide⟩

/-- C3 amended: when an identifier of the EN family carries a geography code
absent from its reference table, the resolver raises the unknown geography
error and the exception aborts the whole loop: whatever identifiers follow in
the list are never resolved and no partial location map is returned. -/
theorem claim_C3_unknown_geography_aborts (qcew la oes : List (String × String))
    (pre : List String) (acc : List (String × String)) (s : String) (post : List String)
    (code : String)
    (hpre : foldME (resolveOne qcew la oes) [] pre = .ok acc)
    (hen : s.toList.take 2 = ['E', 'N'])
    (hcode : enCode s = some code)
    (hlook : lookupTable qcew code = none) :
    get_location qcew la oes (pre ++ s :: post) = .error .unknownGeography := by
  have hEN : resolveEN qcew acc s = .error .unknownGeography := by
    rw [resolveEN, if_pos hen]
    simp only [hcode, hlook]
  have hstep : resolveOne qcew la oes acc s = .error .unknownGeography := by
    rw [resolveOne, hEN]
  rw [get_location, foldME_append, hpre]
  show foldME (resolveOne qcew la oes) acc (s :: post) = Except.error BlsError.unknownGeography
  rw [foldME_cons, hstep]

/-- Witness for C3 amended at a concrete input: the failing identifier is
followed by one that would resolve, and resolution still aborts. -/
theorem claim_C3_unknown_geography_aborts_witness :
    (foldME (resolveOne [("11111", "Place A")] [] []) [] [] = .ok [] ∧
      ("ENU22222000" : String).toList.take 2 = ['E', 'N'] ∧
      enCode "ENU22222000" = some "22222" ∧
      lookupTable [("11111", "Place A")] "22222" = none) ∧
    get_location [("11111", "Place A")] [] [] ([] ++ "ENU22222000" :: ["ENU11111000"]) =
      .error .unknownGeography := by
  refine ⟨⟨rfl, by decide, by decide, by decide⟩, ?_⟩
  exact claim_C3_unknown_geography_aborts [("11111", "Place A")] [] [] [] []
    "ENU22222000" ["ENU11111000"] "22222" rfl (by decide) (by decide) (by decide)

/-- C7 counterexample: on the resolved name `"California -- Statewide"` the
short-name formatting keeps everything strictly before the `--` match, which
includes the trailing space: the renamed column is `"California "` (with a
trailing space), not `"California"`. -/
theorem claim_C7_counterexample :
    clean_df (some (CanonDf.mk ["ID1"] [("2020-03", [none])]))
        [("ID1", "California -- Statewide")] none true =
      .ok (CanonDf.mk ["California "] [("2020-03", [none])]) ∧
    ("California " : String) ≠ "California" :=
  ⟨by decide, by decide⟩

/-- C7 amended: in short-names mode each resolved location name is replaced
by exactly the text preceding the first occurrence of `'--'` or `','` — with
no trimming, so surrounding whitespace before the separator is kept (the
resolved name `"California -- Statewide"` yields `"California "` with its
trailing space). -/
theorem claim_C7_short_names (df : CanonDf) (id loc : String)
    (hcols : df.valueCols = [id]) :
    clean_df (some df) [(id, loc)] none true =
      .ok (CanonDf.mk [shortName loc] df.rows) ∧
    (∀ a b : List Char, hasSep a = false → sepCut (a ++ ',' :: b) = a) ∧
    (∀ a b : List Char, hasSep (a ++ ['-']) = false →
      sepCut (a ++ '-' :: '-' :: b) = a) := by
  refine ⟨?_, ?_, ?_⟩
  · simp [clean_df, renameMap, buildCols, renameColumnsRaise, lookupTable, hcols]
  · intro a
    induction a with
    | nil =>
      intro b _
      simp [sepCut]
    | cons c a ih =>
      intro b h
      simp only [hasSep, Bool.or_eq_true, Bool.or_eq_false_iff] at h
      obtain ⟨⟨hc1, hc2⟩, hc3⟩ := h
      rw [List.cons_append, sepCut]
      rw [if_neg (by simpa using hc1)]
      rw [if_neg ?hcond]
      case hcond =>
        rintro ⟨rfl, hh⟩
        rcases a with _ | ⟨a0, a1⟩
        · simp at hh
        · simp only [List.cons_append, List.head?_cons, Option.some.injEq] at hh
          subst hh
          simp at hc2
      rw [ih b hc3]
  · intro a
    induction a with
    | nil =>
      intro b _
      rw [List.nil_append, sepCut]
      rw [if_neg (by decide), if_pos (by simp)]
    | cons c a ih =>
      intro b h
      rw [List.cons_append] at h ⊢
      simp only [hasSep, Bool.or_eq_true, Bool.or_eq_false_iff] at h
      obtain ⟨⟨hc1, hc2⟩, hc3⟩ := h
      rw [sepCut]
      rw [if_neg (by simpa using hc1)]
      rw [if_neg ?hcond2]
      case hcond2 =>
        rintro ⟨rfl, hh⟩
        rcases a with _ | ⟨a0, a1⟩
        · simp at hc2
        · simp only [List.cons_append, List.head?_cons, Option.some.injEq] at hh
          subst hh
          simp at hc2
      rw [ih b hc3]

/-- Witness for C7 amended: the concrete resolved name of the claim. -/
theorem claim_C7_short_names_witness :
    ((CanonDf.mk ["ID1"] [("2020-03", [none])]).valueCols = ["ID1"] ∧
      clean_df (some (CanonDf.mk ["ID1"] [("2020-03", [none])]))
          [("ID1", "California -- Statewide")] none true =
        .ok (CanonDf.mk [shortName "California -- Statewide"]
          (CanonDf.mk ["ID1"] [("2020-03", [none])]).rows)) ∧
    shortName "California -- Statewide" = "California " := by
  refine ⟨⟨rfl, ?_⟩, by decide⟩
  exact (claim_C7_short_names (CanonDf.mk ["ID1"] [("2020-03", [none])])
    "ID1" "California -- Statewide" rfl).1

/-- Sanity check that the state model is not degenerate: a `clean_df` call
with short names off and a truthy custom map DOES change the stored location
map (the aliased in-place `cols.update`), even though the call's result here
is the `AttributeError` of a missing table. -/
theorem formatterStep_can_mutate_locations :
    (formatterStep (BlsState.mk none [("ID1", "Old")])
        (FormatterCall.clean (some [("ID2", "New")]) false)).2 =
      BlsState.mk none [("ID1", "Old"), ("ID2", "New")] ∧
    (formatterStep (BlsState.mk none [("ID1", "Old")])
        (FormatterCall.clean (some [("ID2", "New")]) false)).2 ≠
      BlsState.mk none [("ID1", "Old")] := by
  constructor
  · rfl
  · intro h
    exact absurd (congrArg BlsState.locations h) (by decide)

/-- C9: every presentation-formatter invocation (`clean_df`, the dataframe
part of `create_table` with its optional descending sort, the dataframe part
of `create_graph` with its optional transpose) leaves the stored canonical
table unchanged, and any sequence of calls — even though a call may mutate
the stored location map through the aliased `cols.update` — ends with the
canonical table it started from. -/
theorem claim_C9_formatter_preserves_table (st : BlsState) (calls : List FormatterCall) :
    (runFormatters st calls).df = st.df ∧ ∀ c, ((formatterStep st c).2).df = st.df := by
  have hstep : ∀ (s : BlsState) (c : FormatterCall), ((formatterStep s c).2).df = s.df := by
    intro s c
    cases c with
    | clean custom short => rfl
    | table custom short desc => rfl
    | graph g custom short tr =>
      show (if g ≠ "line" ∧ g ≠ "bar" then s
        else BlsState.mk s.df (locationsAfterClean s.locations custom short)).df = s.df
      split <;> rfl
  refine ⟨?_, fun c => hstep st c⟩
  show (List.foldl (fun s c => (formatterStep s c).2) st calls).df = st.df
  induction calls generalizing st with
  | nil => rfl
  | cons c cs ih =>
    rw [List.foldl_cons]
    rw [ih ((formatterStep st c).2)]
    exact hstep st c

/-- C10: when the rename map assembled by `clean_df` (resolved locations,
short-named or not, updated with the caller's overrides) contains any key
that is not a column of the canonical table, the call raises the `KeyError`
of `rename(errors='raise')` instead of applying the remaining renames. -/
theorem claim_C10_rename_unknown_key (df : CanonDf) (locations : List (String × String))
    (custom : Option (List (String × String))) (short : Bool)
    (h : ∃ kv ∈ renameMap locations custom short, ¬ df.valueCols.contains kv.1 = true) :
    clean_df (some df) locations custom short = .error .keyError := by
  simp only [clean_df]
  have hall : ((renameMap locations custom short).all
      (fun kv => df.valueCols.contains kv.1)) = false := by
    obtain ⟨kv, hm, hnc⟩ := h
    rw [List.all_eq_false]
    exact ⟨kv, hm, by simpa using hnc⟩
  rw [renameColumnsRaise, if_neg (by rw [hall]; simp)]

/-- Witness for C10 at a concrete input: the location map resolves a series
identifier that contributed no column. -/
theorem claim_C10_rename_unknown_key_witness :
    (∃ kv ∈ renameMap [("ID2", "Somewhere")] none true,
      ¬ (CanonDf.mk ["ID1"] [("2020-03", [none])]).valueCols.contains kv.1 = true) ∧
    clean_df (some (CanonDf.mk ["ID1"] [("2020-03", [none])]))
      [("ID2", "Somewhere")] none true = .error .keyError := by
  refine ⟨?_, ?_⟩
  · exact ⟨("ID2", "Somewhere"), by decide, by decide⟩
  · exact claim_C10_rename_unknown_key (CanonDf.mk ["ID1"] [("2020-03", [none])])
      [("ID2", "Somewhere")] none true ⟨("ID2", "Somewhere"), by decide, by decide⟩

/-- C8: for a monthly merged table (all periods `M01`..`M12`, well-formed
years), the normalizer strips the `M` marker, reads the remaining two digits
as the month number, and produces the rows keyed by `year-month`, sorted
ascending by that key: the output is a permutation of the rows re-keyed by
`monthlyKeyRow` and its date keys are pairwise in lexicographic order. -/
theorem claim_C8_monthly_date_keys (df : MergedDf) (hne : df.rows ≠ [])
    (hp : ∀ r ∈ df.rows, r.period ∈ monthPeriods)
    (hy : ∀ r ∈ df.rows, yearOk r.year = true) :
    ∃ out, organize_df df = .ok out ∧ out.valueCols = df.valueCols ∧
      List.Perm out.rows (df.rows.map monthlyKeyRow) ∧
      (out.rows.map Prod.fst).Pairwise (fun a b => strLe a b = true) := by
  refine ⟨_, organize_df_monthly df hne hp hy, rfl, sortBy_perm dateLe _, ?_⟩
  have hpw := pairwise_sortBy dateLe_total dateLe_trans (df.rows.map monthlyKeyRow)
  exact List.Pairwise.map Prod.fst (fun a b h => h) hpw

/-- Witness for C8 at the claim's own example: periods `M03` and `M12` with
year `2020` produce the keys `2020-03` and `2020-12` in ascending order. -/
theorem claim_C8_monthly_date_keys_witness :
    ((MergedDf.mk ["S"] [MergedRow.mk "2020" "M12" [none],
        MergedRow.mk "2020" "M03" [none]]).rows ≠ [] ∧
      (∀ r ∈ (MergedDf.mk ["S"] [MergedRow.mk "2020" "M12" [none],
        MergedRow.mk "2020" "M03" [none]]).rows, r.period ∈ monthPeriods) ∧
      (∀ r ∈ (MergedDf.mk ["S"] [MergedRow.mk "2020" "M12" [none],
        MergedRow.mk "2020" "M03" [none]]).rows, yearOk r.year = true)) ∧
    (∃ out, organize_df (MergedDf.mk ["S"] [MergedRow.mk "2020" "M12" [none],
        MergedRow.mk "2020" "M03" [none]]) = .ok out ∧
      out.valueCols = ["S"] ∧
      List.Perm out.rows ((MergedDf.mk ["S"] [MergedRow.mk "2020" "M12" [none],
        MergedRow.mk "2020" "M03" [none]]).rows.map monthlyKeyRow) ∧
      (out.rows.map Prod.fst).Pairwise (fun a b => strLe a b = true)) ∧
    organize_df (MergedDf.mk ["S"] [MergedRow.mk "2020" "M12" [none],
        MergedRow.mk "2020" "M03" [none]]) =
      .ok (CanonDf.mk ["S"] [("2020-03", [none]), ("2020-12", [none])]) := by
  refine ⟨⟨by decide, by decide, by decide⟩, ?_, by decide⟩
  exact claim_C8_monthly_date_keys _ (by decide) (by decide) (by decide)

/-- C1 counterexample: the quarterly period `Q02` with year `2021` produces
the date key `2021-04` — pandas parses the constructed string `2021-Q2` as a
quarter and renders the quarter's first month — not a key whose month token
is the quarter digit `2`. -/
theorem claim_C1_counterexample :
    organize_df (MergedDf.mk ["S"] [MergedRow.mk "2021" "Q02" [none]]) =
      .ok (CanonDf.mk ["S"] [("2021-04", [none])]) ∧
    ("2021-04" : String) ≠ "2021-02" ∧ ("2021-04" : String) ≠ "2021-2" :=
  ⟨by decide, by decide, by decide⟩

/-- C1 amended: for a quarterly merged table (periods `Q01`..`Q04`,
well-formed years) the normalizer produces a `YYYY-MM` key lying within the
row's year whose month is the first month of the quarter — `01`, `04`, `07`
or `10` for `Q01`..`Q04` (`qStartMonth`) — not the quarter's trailing digit
itself (the two agree only on `Q01`); the rows come out sorted ascending by
that key. -/
theorem claim_C1_quarterly_date_keys (df : MergedDf) (hne : df.rows ≠ [])
    (hp : ∀ r ∈ df.rows, r.period ∈ quarterPeriods)
    (hy : ∀ r ∈ df.rows, yearOk r.year = true) :
    ∃ out, organize_df df = .ok out ∧ out.valueCols = df.valueCols ∧
      List.Perm out.rows (df.rows.map quarterlyKeyRow) ∧
      (∀ r ∈ df.rows, (quarterlyKeyRow r).1 = r.year ++ "-" ++ qStartMonth r.period) ∧
      (out.rows.map Prod.fst).Pairwise (fun a b => strLe a b = true) := by
  refine ⟨_, organize_df_quarterly df hne hp hy, rfl, sortBy_perm dateLe _,
    fun r _ => rfl, ?_⟩
  have hpw := pairwise_sortBy dateLe_total dateLe_trans (df.rows.map quarterlyKeyRow)
  exact List.Pairwise.map Prod.fst (fun a b h => h) hpw

/-- Witness for C1 amended at the claim's example `Q01`/`2021` (where the key
is `2021-01`, a valid `YYYY-MM` within 2021) together with the `Q02` row
showing the `04` month. -/
theorem claim_C1_quarterly_date_keys_witness :
    ((MergedDf.mk ["S"] [MergedRow.mk "2021" "Q01" [none],
        MergedRow.mk "2021" "Q02" [none]]).rows ≠ [] ∧
      (∀ r ∈ (MergedDf.mk ["S"] [MergedRow.mk "2021" "Q01" [none],
        MergedRow.mk "2021" "Q02" [none]]).rows, r.period ∈ quarterPeriods) ∧
      (∀ r ∈ (MergedDf.mk ["S"] [MergedRow.mk "2021" "Q01" [none],
        MergedRow.mk "2021" "Q02" [none]]).rows, yearOk r.year = true)) ∧
    (∃ out, organize_df (MergedDf.mk ["S"] [MergedRow.mk "2021" "Q01" [none],
        MergedRow.mk "2021" "Q02" [none]]) = .ok out ∧
      out.valueCols = ["S"] ∧
      List.Perm out.rows ((MergedDf.mk ["S"] [MergedRow.mk "2021" "Q01" [none],
        MergedRow.mk "2021" "Q02" [none]]).rows.map quarterlyKeyRow) ∧
      (∀ r ∈ (MergedDf.mk ["S"] [MergedRow.mk "2021" "Q01" [none],
        MergedRow.mk "2021" "Q02" [none]]).rows,
        (quarterlyKeyRow r).1 = r.year ++ "-" ++ qStartMonth r.period) ∧
      (out.rows.map Prod.fst).Pairwise (fun a b => strLe a b = true)) ∧
    organize_df (MergedDf.mk ["S"] [MergedRow.mk "2021" "Q01" [none],
        MergedRow.mk "2021" "Q02" [none]]) =
      .ok (CanonDf.mk ["S"] [("2021-01", [none]), ("2021-04", [none])]) := by
  refine ⟨⟨by decide, by decide, by decide⟩, ?_, by decide⟩
  exact claim_C1_quarterly_date_keys _ (by decide) (by decide) (by decide)

end BlsData
